import Mathlib

/-!
Verification development for the apple_health_dashboard repository
(src/parser.py, src/process_data.py, src/app.py, src/config.py).

The Python code is shallowly embedded: CSV rows become association lists of
string pairs, Python floats become rationals, the nested defaultdict
accumulators become association lists built with an update-with-default
operation that mirrors defaultdict auto-vivification (new keys are appended,
matching dict insertion order), and exception handling becomes explicit
Option/Except flow.  Number parsing is restricted to plain decimal literals
with an optional sign and fraction (the forms the health exports contain);
Python's exponent/inf/nan float syntax is not modelled.  Python's round uses
banker's rounding on binary floats; it is embedded here as exact rational
rounding to the nearest multiple of a power of ten (half away from even only
at exact ties, which the claims do not depend on).
-/

namespace HealthDash

/-- Whitespace characters recognised by Python str.split and str.strip. -/
def wsChar (c : Char) : Bool := c == ' ' || c == '\t' || c == '\n' || c == '\r'

/-- Strips whitespace from both ends of a character list (Python strip). -/
def trimChars (l : List Char) : List Char :=
  ((l.dropWhile wsChar).reverse.dropWhile wsChar).reverse

/-- First whitespace-separated token of a character list, if any; embeds the
value.split()[0] indexing in safe_float, where an all-whitespace string
raises IndexError. -/
def firstTok : List Char → Option (List Char)
  | [] => none
  | c :: cs =>
    if wsChar c then firstTok cs
    else some (c :: cs.takeWhile (fun d => !wsChar d))

/-- Numeric value of a decimal digit character, or none. -/
def charDigit? (c : Char) : Option ℕ :=
  if c.isDigit then some (c.toNat - 48) else none

/-- Value of a nonempty all-digit character list, reading left to right. -/
def digitsAux : ℕ → List Char → Option ℕ
  | acc, [] => some acc
  | acc, c :: cs =>
    match charDigit? c with
    | some d => digitsAux (acc * 10 + d) cs
    | none => none

/-- Parses a nonempty string of decimal digits. -/
def digitsVal? : List Char → Option ℕ
  | [] => none
  | l => digitsAux 0 l

/-- Parses an unsigned decimal literal: digits, optionally a dot and more
digits; at least one digit overall (Python float accepts "1.", ".5"). -/
def parseDecimal? (l : List Char) : Option ℚ :=
  let intPart := l.takeWhile (· ≠ '.')
  match l.dropWhile (· ≠ '.') with
  | [] => (digitsVal? intPart).map (fun n => (n : ℚ))
  | '.' :: frac =>
    if frac.contains '.' then none
    else if intPart.isEmpty && frac.isEmpty then none
    else
      match (if intPart.isEmpty then some 0 else digitsVal? intPart),
            (if frac.isEmpty then some 0 else digitsVal? frac) with
      | some i, some f => some ((i : ℚ) + (f : ℚ) / (10 : ℚ) ^ frac.length)
      | _, _ => none
  | _ => none

/-- Parses a signed decimal literal from a character list. -/
def signedDecimal? (l : List Char) : Option ℚ :=
  match l with
  | '+' :: t => parseDecimal? t
  | '-' :: t => (parseDecimal? t).map Neg.neg
  | t => parseDecimal? t

/-- Embeds Python float(s) on the decimal-literal fragment: surrounding
whitespace is ignored, an optional sign precedes the digits. -/
def pyFloat? (s : String) : Option ℚ :=
  signedDecimal? (trimChars s.toList)

/-- Embeds safe_float from src/app.py on a string argument: take the first
whitespace-separated token (IndexError on none of them means the default),
drop commas, parse as float, default on failure. -/
def safeFloatStr (s : String) (d : ℚ) : ℚ :=
  match firstTok s.toList with
  | none => d
  | some t =>
    match signedDecimal? (t.filter (fun c => c ≠ ',')) with
    | some q => q
    | none => d

/-- Embeds safe_float from src/app.py: None yields the default. -/
def safeFloat (o : Option String) (d : ℚ) : ℚ :=
  match o with
  | none => d
  | some s => safeFloatStr s d

/-- Embeds Python round(q, 1): nearest multiple of 1/10. -/
def round1 (q : ℚ) : ℚ := ((round (10 * q) : ℤ) : ℚ) / 10

/-- Embeds Python round(q, 2): nearest multiple of 1/100. -/
def round2 (q : ℚ) : ℚ := ((round (100 * q) : ℤ) : ℚ) / 100

/-- Calendar date as parsed by datetime.strptime(s[:10], measuring years,
months and days exactly as Python's datetime.date. -/
structure HDate where
  year : ℕ
  month : ℕ
  day : ℕ
deriving DecidableEq, Repr

/-- Gregorian leap-year test. -/
def isLeap (y : ℕ) : Bool := y % 4 = 0 && (y % 100 ≠ 0 || y % 400 = 0)

/-- Length of a month, as validated by datetime. -/
def daysInMonth (y m : ℕ) : ℕ :=
  match m with
  | 1 => 31
  | 2 => if isLeap y then 29 else 28
  | 3 => 31
  | 4 => 30
  | 5 => 31
  | 6 => 30
  | 7 => 31
  | 8 => 31
  | 9 => 30
  | 10 => 31
  | 11 => 30
  | 12 => 31
  | _ => 0

/-- Embeds parse_date from src/app.py and the strptime(s[:10], date parses in
the aggregators: the first ten characters must form a zero-padded
YYYY-MM-DD calendar date (datetime requires year at least 1 and validates
the day against the month). -/
def parseDate (s : String) : Option HDate :=
  match s.toList.take 10 with
  | [y1, y2, y3, y4, '-', m1, m2, '-', d1, d2] =>
    match digitsVal? [y1, y2, y3, y4], digitsVal? [m1, m2], digitsVal? [d1, d2] with
    | some y, some m, some d =>
      if 1 ≤ y ∧ 1 ≤ m ∧ m ≤ 12 ∧ 1 ≤ d ∧ d ≤ daysInMonth y m then
        some ⟨y, m, d⟩
      else none
    | _, _, _ => none
  | _ => none

/-- Canonical month order used throughout the source for monthly labels. -/
def monthOrder : List String :=
  ["January", "February", "March", "April", "May", "June",
   "July", "August", "September", "October", "November", "December"]

/-- Embeds strftime of a month name for a valid month number. -/
def monthName (m : ℕ) : String := monthOrder.getD (m - 1) ""

/-- Zero-pads a number to two digits. -/
def pad2 (n : ℕ) : String := if n < 10 then "0" ++ toString n else toString n

/-- Zero-pads a number to four digits. -/
def pad4 (n : ℕ) : String :=
  if n < 10 then "000" ++ toString n
  else if n < 100 then "00" ++ toString n
  else if n < 1000 then "0" ++ toString n
  else toString n

/-- Embeds strftime of a date in ISO form, the daily bucket label. -/
def dateToString (d : HDate) : String :=
  pad4 d.year ++ "-" ++ pad2 d.month ++ "-" ++ pad2 d.day

/-- Serial day number of a civil date (days since 0000-03-01), the standard
era-based formula; datetime date subtraction in whole days is embedded as
subtraction of these serial numbers. -/
def dayNumber (dt : HDate) : ℕ :=
  let y := if dt.month ≤ 2 then dt.year - 1 else dt.year
  let era := y / 400
  let yoe := y % 400
  let mp := (dt.month + 9) % 12
  let doy := (153 * mp + 2) / 5 + dt.day - 1
  let doe := yoe * 365 + yoe / 4 - yoe / 100 + doy
  era * 146097 + doe

/-- Strict comparison of dates, as datetime comparison of midnight stamps. -/
def dateLtB (a b : HDate) : Bool :=
  a.year < b.year ||
    (a.year = b.year && (a.month < b.month ||
      (a.month = b.month && a.day < b.day)))

/-- Start-bound test of the query filters: start_date and dt < start_date. -/
def beforeStart (sd : Option HDate) (dt : HDate) : Bool :=
  match sd with
  | some s => dateLtB dt s
  | none => false

/-- End-bound test of the query filters: end_date and dt > end_date. -/
def afterEnd (ed : Option HDate) (dt : HDate) : Bool :=
  match ed with
  | some e => dateLtB e dt
  | none => false

/-- Association-list lookup; Python dict access with unique keys. -/
def lookupA {α β : Type} [DecidableEq α] : List (α × β) → α → Option β
  | [], _ => none
  | (k, v) :: t, q => if q = k then some v else lookupA t q

/-- Association-list update with a default, mirroring defaultdict access: an
absent key is appended with the default before the update runs, an existing
binding is updated in place, so key order matches dict insertion order. -/
def updA {α β : Type} [DecidableEq α] : List (α × β) → α → β → (β → β) → List (α × β)
  | [], k, d, f => [(k, f d)]
  | (k', v) :: t, k, d, f =>
    if k = k' then (k', f v) :: t else (k', v) :: updA t k d f

/-- Lookup with a default value, mirroring defaultdict reads. -/
def getDA {α β : Type} [DecidableEq α] (l : List (α × β)) (k : α) (d : β) : β :=
  (lookupA l k).getD d

example : pyFloat? "  12.5 " = some (25 / 2 : ℚ) := by
  simp [pyFloat?, signedDecimal?, parseDecimal?, trimChars, digitsVal?,
    digitsAux, charDigit?, wsChar]
  norm_num
example : pyFloat? "1,200" = none := by
  simp [pyFloat?, signedDecimal?, parseDecimal?, trimChars, digitsVal?,
    digitsAux, charDigit?, wsChar]
example : safeFloatStr "12.5 km" 0 = (25 / 2 : ℚ) := by
  simp [safeFloatStr, firstTok, signedDecimal?, parseDecimal?, digitsVal?,
    digitsAux, charDigit?, wsChar]
  norm_num
example : safeFloatStr "1,200" 0 = (1200 : ℚ) := by
  simp [safeFloatStr, firstTok, signedDecimal?, parseDecimal?, digitsVal?,
    digitsAux, charDigit?, wsChar]
example : safeFloatStr "" 7 = (7 : ℚ) := by
  simp [safeFloatStr, firstTok]
example : safeFloat none 7 = (7 : ℚ) := rfl
example : parseDate "2024-01-15 08:30:00 +0000" = some ⟨2024, 1, 15⟩ := by decide
example : parseDate "2024-13-15" = none := by decide
example : parseDate "2024-02-30" = none := by decide
example : parseDate "" = none := by decide
example : dayNumber ⟨2024, 1, 2⟩ = dayNumber ⟨2024, 1, 1⟩ + 1 := by decide
example : dayNumber ⟨2024, 3, 1⟩ = dayNumber ⟨2024, 2, 29⟩ + 1 := by decide
example : dayNumber ⟨2024, 1, 5⟩ = dayNumber ⟨2024, 1, 3⟩ + 2 := by decide

/-- Tests whether the first list starts the second; helper for the substring
and identifier-stripping operations. -/
def startsL : List Char → List Char → Bool
  | [], _ => true
  | _ :: _, [] => false
  | a :: as, b :: bs => a == b && startsL as bs

/-- Contiguous-substring test on character lists; embeds the Python
membership test of one string inside another. -/
def containsL (needle : List Char) : List Char → Bool
  | [] => needle.isEmpty
  | _h :: t => startsL needle (_h :: t) || containsL needle t

/-- Embeds the Python substring test needle in hay. -/
def containsSub (needle hay : String) : Bool := containsL needle.toList hay.toList

/-- Lexicographic comparison of character lists by code point, the order
Python uses for strings. -/
def lexLeB : List Char → List Char → Bool
  | [], _ => true
  | _ :: _, [] => false
  | a :: as, b :: bs =>
    if a.toNat < b.toNat then true
    else if b.toNat < a.toNat then false
    else lexLeB as bs

/-- Lexicographic string order used when the source sorts label or bucket
name lists. -/
def strLeB (s t : String) : Bool := lexLeB s.toList t.toList

/-- Strict lexicographic order on strings. -/
def strLtB (s t : String) : Bool := strLeB s t && !(s == t)

/-- Embeds Python sorted() on strings. -/
def sortStr (l : List String) : List String :=
  List.insertionSort (fun a b => strLeB a b = true) l

/-- Embeds Python sorted() on the year keys. -/
def sortNat (l : List ℕ) : List ℕ := List.insertionSort (· ≤ ·) l

/-- Lowercases a string character by character, as Python str.lower on the
ASCII identifiers the source compares. -/
def lowerStr (s : String) : String := String.mk (s.toList.map Char.toLower)

/-- Chart value of a dataset entry: a plain value list (single-activity
series) or one list per bucket name (grouped series of the data endpoint). -/
inductive DSVal where
  | flat (vals : List ℚ)
  | grouped (byBucket : List (String × List ℚ))
deriving Repr

/-- One year entry of a Formatted Series, the chart-ready output shape. -/
structure FormattedYear where
  year : ℕ
  labels : List String
  datasets : List (String × DSVal)
deriving Repr

/-- Row of a heart_rate.csv file: columns startDate, value. -/
structure HrRow where
  startDate : String
  value : String
deriving Repr, DecidableEq

/-- Heart-rate bucket accumulator of the batch aggregation.  The Python
initial min is float(inf), embedded as none until a first reading
arrives; max starts at 0.0 as in the source. -/
structure HrAcc where
  sum : ℚ
  count : ℕ
  min? : Option ℚ
  max : ℚ
deriving Repr

/-- Initial heart-rate accumulator from the defaultdict factory. -/
def hrZero : HrAcc := { sum := 0, count := 0, min? := none, max := 0 }

/-- Nested year-month accumulator map for the batch heart-rate aggregation. -/
@[reducible] def HrBatchState : Type := List (ℕ × List (String × HrAcc))

/-- Embeds one row of aggregate_heart_rate_data (src/parser.py, the same
loop also appears inline in process_heart_rate_data of src/process_data.py):
date and value parse failures skip the row (ValueError caught by the
continue), otherwise sum, count, min and max of the bucket are all updated
with the reading, whatever its sign. -/
def hrBatchStep (st : HrBatchState) (r : HrRow) : HrBatchState :=
  match parseDate r.startDate with
  | none => st
  | some dt =>
    match pyFloat? r.value with
    | none => st
    | some hr =>
      updA st dt.year [] (fun months =>
        updA months (monthName dt.month) hrZero (fun a =>
          { sum := a.sum + hr, count := a.count + 1,
            min? := some (match a.min? with | none => hr | some m => min m hr),
            max := max a.max hr }))

/-- Embeds aggregate_heart_rate_data from src/parser.py (and the identical
aggregation loop of process_heart_rate_data in src/process_data.py). -/
def aggregate_heart_rate_data (rows : List HrRow) : HrBatchState :=
  rows.foldl hrBatchStep []

/-- Per-bucket reading lists of the date-filtered query aggregation. -/
@[reducible] def HrQueryState : Type := List (ℕ × List (String × List ℚ))

/-- Embeds one row of aggregate_heart_rate_by_date (src/app.py): parse the
date, apply the inclusive date filter, read the value with safe_float and
append it to the bucket list only when it is strictly positive. -/
def hrQueryStep (sd ed : Option HDate) (st : HrQueryState) (r : HrRow) : HrQueryState :=
  match parseDate r.startDate with
  | none => st
  | some dt =>
    if beforeStart sd dt then st
    else if afterEnd ed dt then st
    else
      let val := safeFloatStr r.value 0
      if 0 < val then
        updA st dt.year [] (fun months =>
          updA months (monthName dt.month) [] (fun l => l ++ [val]))
      else st

/-- Builds the bucket lists of aggregate_heart_rate_by_date (src/app.py).
The csv argument is none when heart_rate.csv does not exist, in which case
the function returns an empty result before scanning. -/
def hrQueryBuild (sd ed : Option HDate) (rows : List HrRow) : HrQueryState :=
  rows.foldl (hrQueryStep sd ed) []

/-- Maximum of a reading list; Python max on a nonempty list. -/
def maxListD : List ℚ → ℚ
  | [] => 0
  | x :: xs => xs.foldl max x

/-- Embeds the formatting half of aggregate_heart_rate_by_date (src/app.py):
years sorted ascending, month labels in canonical order, per-bucket average
rounded to one decimal and per-bucket maximum, and no minimum dataset. -/
def hrQueryFormat (st : HrQueryState) : List FormattedYear :=
  (sortNat (st.map Prod.fst)).map (fun y =>
    let monthsData := getDA st y []
    let sortedMonths := monthOrder.filter (fun m => (lookupA monthsData m).isSome)
    { year := y, labels := sortedMonths,
      datasets :=
        [("avg_heart_rate", .flat (sortedMonths.map (fun m =>
            let l := getDA monthsData m []
            round1 (l.sum / (l.length : ℚ))))),
         ("max_heart_rate", .flat (sortedMonths.map (fun m =>
            maxListD (getDA monthsData m []))))] })

/-- Embeds aggregate_heart_rate_by_date (src/app.py) end to end; the
start and end filters arrive as raw request strings. -/
def aggregate_heart_rate_by_date (rows : List HrRow) (sdStr edStr : String) :
    List FormattedYear :=
  hrQueryFormat (hrQueryBuild (parseDate sdStr) (parseDate edStr) rows)

/-- Row of a sleep.csv file: columns startDate, endDate, value, duration. -/
structure SleepRow where
  startDate : String
  endDate : String
  value : String
  duration : String
deriving Repr, DecidableEq

/-- Sleep-phase minute accumulator per bucket. -/
structure SleepAcc where
  total_sleep_minutes : ℚ
  in_bed_minutes : ℚ
  awake_minutes : ℚ
deriving Repr

/-- Initial sleep accumulator from the defaultdict factory. -/
def sleepZero : SleepAcc :=
  { total_sleep_minutes := 0, in_bed_minutes := 0, awake_minutes := 0 }

/-- Nested year-month accumulator map for sleep aggregation. -/
@[reducible] def SleepState : Type := List (ℕ × List (String × SleepAcc))

/-- Embeds one row of the sleep aggregation loop in process_sleep_data
(src/process_data.py): the raw category value is classified by substring
tests, Asleep first, then InBed, then Awake; a value matching none of them
touches no bucket. -/
def sleepSubStep (st : SleepState) (r : SleepRow) : SleepState :=
  match parseDate r.startDate with
  | none => st
  | some dt =>
    match pyFloat? r.duration with
    | none => st
    | some dur =>
      if containsSub "Asleep" r.value then
        updA st dt.year [] (fun ms => updA ms (monthName dt.month) sleepZero
          (fun a => { a with total_sleep_minutes := a.total_sleep_minutes + dur }))
      else if containsSub "InBed" r.value then
        updA st dt.year [] (fun ms => updA ms (monthName dt.month) sleepZero
          (fun a => { a with in_bed_minutes := a.in_bed_minutes + dur }))
      else if containsSub "Awake" r.value then
        updA st dt.year [] (fun ms => updA ms (monthName dt.month) sleepZero
          (fun a => { a with awake_minutes := a.awake_minutes + dur }))
      else st

/-- Embeds the aggregation loop in process_sleep_data (src/process_data.py). -/
def processSleepAgg (rows : List SleepRow) : SleepState :=
  rows.foldl sleepSubStep []

/-- Embeds one row of aggregate_sleep_data (src/parser.py): the value is
compared for exact equality against the numeric category codes, 1 for
Asleep, 0 for InBed, 2 for Awake; anything else touches no bucket. -/
def sleepCodeStep (st : SleepState) (r : SleepRow) : SleepState :=
  match parseDate r.startDate with
  | none => st
  | some dt =>
    match pyFloat? r.duration with
    | none => st
    | some dur =>
      if r.value = "1" then
        updA st dt.year [] (fun ms => updA ms (monthName dt.month) sleepZero
          (fun a => { a with total_sleep_minutes := a.total_sleep_minutes + dur }))
      else if r.value = "0" then
        updA st dt.year [] (fun ms => updA ms (monthName dt.month) sleepZero
          (fun a => { a with in_bed_minutes := a.in_bed_minutes + dur }))
      else if r.value = "2" then
        updA st dt.year [] (fun ms => updA ms (monthName dt.month) sleepZero
          (fun a => { a with awake_minutes := a.awake_minutes + dur }))
      else st

/-- Embeds aggregate_sleep_data from src/parser.py. -/
def aggregate_sleep_data (rows : List SleepRow) : SleepState :=
  rows.foldl sleepCodeStep []

example : containsSub "Asleep" "HKCategoryValueSleepAnalysisAsleep" = true := by decide
example : containsSub "Asleep" "1" = false := by decide

/-- Generic CSV row as produced by DictReader over the flattened workout
tables: an association of column name to cell string, keys unique. -/
@[reducible] def Row : Type := List (String × String)

/-- Embeds row.get(col): the cell if the column exists, otherwise None. -/
def rowGet (r : Row) (k : String) : Option String := lookupA r k

/-- Workout bucket accumulator: count plus duration, energy and distance
sums. -/
structure WStats where
  count : ℕ
  duration : ℚ
  energy : ℚ
  distance : ℚ
deriving Repr

/-- Initial workout accumulator from the defaultdict factory. -/
def wZero : WStats := { count := 0, duration := 0, energy := 0, distance := 0 }

/-- Nested year-month workout accumulator map. -/
@[reducible] def WAggState : Type := List (ℕ × List (String × WStats))

/-- Updates one (year, month) bucket in place, auto-vivifying like the
nested defaultdict. -/
def wBump (st : WAggState) (y : ℕ) (m : String) (f : WStats → WStats) : WAggState :=
  updA st y [] (fun months => updA months m wZero f)

/-- Embeds float(row.get(col, 0) or 0) in process_data: a missing column or
an empty cell is falsy and becomes 0; a nonempty cell parses as float,
where failure raises the ValueError the loop catches. -/
def pyOrZero (o : Option String) : Option ℚ :=
  match o with
  | none => some 0
  | some s => if s = "" then some 0 else pyFloat? s

/-- Embeds the two-column fallback chain a or b or 0 followed by float() in
process_data: the first non-empty cell is parsed, otherwise zero. -/
def pyOrChain (a b : Option String) : Option ℚ :=
  match a with
  | some s => if s ≠ "" then pyFloat? s else pyOrZero b
  | none => pyOrZero b

/-- Embeds one row of the pre-aggregation loop in process_data
(src/process_data.py lines 430-454).  The try block mutates the defaultdict
in statement order, so a ValueError keeps every update already made: an
unparseable date skips the row entirely, but a non-numeric duration leaves
the count already incremented, a non-numeric energy leaves count and
duration updated, and a non-numeric distance leaves count, duration and
energy updated.  The except clause turns the failure into continue, so the
scan always proceeds to the next row. -/
def pdWorkoutStep (st : WAggState) (r : Row) : WAggState :=
  let sdStr := (rowGet r "startDate").getD ""
  if sdStr = "" then st
  else
    match parseDate sdStr with
    | none => st
    | some dt =>
      let y := dt.year
      let m := monthName dt.month
      let st1 := wBump st y m (fun s => { s with count := s.count + 1 })
      match pyOrZero (rowGet r "duration") with
      | none => st1
      | some dur =>
        let st2 := wBump st1 y m (fun s => { s with duration := s.duration + dur })
        match pyOrChain (rowGet r "stat_ActiveEnergyBurned_sum")
            (rowGet r "totalEnergyBurned") with
        | none => st2
        | some en =>
          let st3 := wBump st2 y m (fun s => { s with energy := s.energy + en })
          match pyOrChain (rowGet r "stat_DistanceWalkingRunning_sum")
              (rowGet r "totalDistance") with
          | none => st3
          | some di => wBump st3 y m (fun s => { s with distance := s.distance + di })

/-- Embeds the pre-aggregation scan of process_data (src/process_data.py). -/
def pdWorkoutAgg (rows : List Row) : WAggState := rows.foldl pdWorkoutStep []

/-- Row of a fixed-schema workouts.csv written by src/parser.py. -/
structure WRow where
  startDate : String
  duration : String
  totalEnergyBurned : String
  totalDistance : String
deriving Repr, DecidableEq

/-- Embeds one row of aggregate_from_csv (src/parser.py lines 374-391);
the same statement-order try semantics as the process_data loop, with
direct column indexing and plain float parses. -/
def afcStep (st : WAggState) (r : WRow) : WAggState :=
  match parseDate r.startDate with
  | none => st
  | some dt =>
    let y := dt.year
    let m := monthName dt.month
    let st1 := wBump st y m (fun s => { s with count := s.count + 1 })
    match pyFloat? r.duration with
    | none => st1
    | some dur =>
      let st2 := wBump st1 y m (fun s => { s with duration := s.duration + dur })
      match pyFloat? r.totalEnergyBurned with
      | none => st2
      | some en =>
        let st3 := wBump st2 y m (fun s => { s with energy := s.energy + en })
        match pyFloat? r.totalDistance with
        | none => st3
        | some di => wBump st3 y m (fun s => { s with distance := s.distance + di })

/-- Embeds aggregate_from_csv (src/parser.py). -/
def aggregate_from_csv (rows : List WRow) : WAggState := rows.foldl afcStep []

/-- Embeds format_aggregated_data (src/parser.py lines 393-423) and the
textually identical formatting block of process_data (src/process_data.py
lines 456-486) that writes aggregated.json: years ascending, month labels
in canonical order, and the raw accumulator sums emitted as-is, with no
rounding anywhere. -/
def format_aggregated_data (agg : WAggState) : List FormattedYear :=
  (sortNat (agg.map Prod.fst)).map (fun y =>
    let monthsData := getDA agg y []
    let sortedMonths := monthOrder.filter (fun m => (lookupA monthsData m).isSome)
    let cell := fun m => getDA monthsData m wZero
    { year := y, labels := sortedMonths,
      datasets :=
        [("duration", .flat (sortedMonths.map (fun m => (cell m).duration))),
         ("energy", .flat (sortedMonths.map (fun m => (cell m).energy))),
         ("distance", .flat (sortedMonths.map (fun m => (cell m).distance))),
         ("count", .flat (sortedMonths.map (fun m => ((cell m).count : ℚ))))] })

/-- Names of the special continuous-signal directories excluded from the
generic workout operations. -/
def specialDirs : List String := ["sleep", "steps", "heart_rate"]

/-- Embeds categorize_activity (src/app.py): keyword substring match on the
lowercased name picks Strength Training, everything else is Cardio. -/
def categorize_activity (name : String) : String :=
  if name = "" then "Cardio"
  else if (["strength", "core", "bodyweight", "yoga", "mindandbody",
      "resistance"].any (fun kw => containsSub kw (lowerStr name))) then
    "Strength Training"
  else "Cardio"

/-- Embeds the two-column truthy fallback a or b used by the query layer
before safe_float: the first present non-empty cell, if any. -/
def pickTruthy (a b : Option String) : Option String :=
  match a with
  | some s => if s ≠ "" then some s else
      (match b with | some t => if t ≠ "" then some t else none | none => none)
  | none => match b with | some t => if t ≠ "" then some t else none | none => none

/-- State of the data endpoint: year to label to bucket name to stats. -/
@[reducible] def DataState : Type := List (ℕ × List (String × List (String × WStats)))

/-- Embeds one row of the scan in the data endpoint (src/app.py lines
248-274): parse and filter the date, pick the bucket label by granularity
and the bucket name by the categorization flag, then accumulate the four
metrics with safe_float. -/
def dataRowStep (gb : Bool) (gran : String) (sd ed : Option HDate) (act : String)
    (st : DataState) (r : Row) : DataState :=
  match parseDate ((rowGet r "startDate").getD "") with
  | none => st
  | some dt =>
    if beforeStart sd dt then st
    else if afterEnd ed dt then st
    else
      let label := if gran = "daily" then dateToString dt else monthName dt.month
      let bucket := if gb then categorize_activity act else act
      updA st dt.year [] (fun yd => updA yd label [] (fun ld => updA ld bucket wZero
        (fun s =>
          { count := s.count + 1,
            duration := s.duration + safeFloat (rowGet r "duration") 0,
            energy := s.energy + safeFloat (pickTruthy
              (rowGet r "stat_ActiveEnergyBurned_sum") (rowGet r "totalEnergyBurned")) 0,
            distance := s.distance + safeFloat (pickTruthy
              (rowGet r "stat_DistanceWalkingRunning_sum") (rowGet r "totalDistance")) 0 })))

/-- Builds the nested accumulator of the data endpoint over the selected
activities; a missing workouts.csv (absent directory entry) is skipped. -/
def dataBuild (dirs : List (String × List Row)) (activity : String) (gb : Bool)
    (gran : String) (sd ed : Option HDate) : DataState :=
  let acts := if activity = "Total" then
      (dirs.map Prod.fst).filter (fun d => ¬ d ∈ specialDirs)
    else [activity]
  acts.foldl (fun st act =>
    match lookupA dirs act with
    | none => st
    | some rows => rows.foldl (dataRowStep gb gran sd ed act) st) []

/-- Embeds the formatting half of the data endpoint (src/app.py lines
276-344).  Years ascend; daily labels are the sorted ISO date strings,
monthly labels follow canonical month order.  In the grouped branch each
metric carries one value list per bucket plus an always-present Total list;
every emitted value passes through round to one decimal, averages are
computed from the bucket's own sum and count.  In the single-activity
branch the six metric lists are flat and likewise rounded. -/
def apiDataFormat (activity : String) (gb : Bool) (gran : String)
    (st : DataState) : List FormattedYear :=
  (sortNat (st.map Prod.fst)).map (fun y =>
    let yearData := getDA st y []
    let sortedLabels := if gran = "daily" then sortStr (yearData.map Prod.fst)
      else monthOrder.filter (fun m => (lookupA yearData m).isSome)
    let cell := fun lbl b => getDA (getDA yearData lbl []) b wZero
    if activity = "Total" || gb then
      let bucketsToShow := sortStr ((yearData.map (fun p => p.2.map Prod.fst)).flatten.dedup)
      let totCount := fun lbl => bucketsToShow.foldl (fun a b => a + ((cell lbl b).count : ℚ)) 0
      let totDur := fun lbl => bucketsToShow.foldl (fun a b => a + (cell lbl b).duration) 0
      let totEn := fun lbl => bucketsToShow.foldl (fun a b => a + (cell lbl b).energy) 0
      let totDi := fun lbl => bucketsToShow.foldl (fun a b => a + (cell lbl b).distance) 0
      { year := y, labels := sortedLabels,
        datasets :=
          [("count", .grouped (("Total", sortedLabels.map (fun lbl => round1 (totCount lbl))) ::
              bucketsToShow.map (fun b => (b, sortedLabels.map (fun lbl =>
                round1 ((cell lbl b).count : ℚ)))))),
           ("duration", .grouped (("Total", sortedLabels.map (fun lbl => round1 (totDur lbl))) ::
              bucketsToShow.map (fun b => (b, sortedLabels.map (fun lbl =>
                round1 (cell lbl b).duration))))),
           ("energy", .grouped (("Total", sortedLabels.map (fun lbl => round1 (totEn lbl))) ::
              bucketsToShow.map (fun b => (b, sortedLabels.map (fun lbl =>
                round1 (cell lbl b).energy))))),
           ("distance", .grouped (("Total", sortedLabels.map (fun lbl => round1 (totDi lbl))) ::
              bucketsToShow.map (fun b => (b, sortedLabels.map (fun lbl =>
                round1 (cell lbl b).distance))))),
           ("avg_duration", .grouped (("Total", sortedLabels.map (fun lbl =>
                if 0 < totCount lbl then round1 (totDur lbl / totCount lbl) else 0)) ::
              bucketsToShow.map (fun b => (b, sortedLabels.map (fun lbl =>
                let s := cell lbl b
                if 0 < s.count then round1 (s.duration / (s.count : ℚ)) else 0))))),
           ("avg_energy", .grouped (("Total", sortedLabels.map (fun lbl =>
                if 0 < totCount lbl then round1 (totEn lbl / totCount lbl) else 0)) ::
              bucketsToShow.map (fun b => (b, sortedLabels.map (fun lbl =>
                let s := cell lbl b
                if 0 < s.count then round1 (s.energy / (s.count : ℚ)) else 0)))))] }
    else
      { year := y, labels := sortedLabels,
        datasets :=
          [("count", .flat (sortedLabels.map (fun lbl =>
              round1 ((cell lbl activity).count : ℚ)))),
           ("duration", .flat (sortedLabels.map (fun lbl =>
              round1 (cell lbl activity).duration))),
           ("energy", .flat (sortedLabels.map (fun lbl =>
              round1 (cell lbl activity).energy))),
           ("distance", .flat (sortedLabels.map (fun lbl =>
              round1 (cell lbl activity).distance))),
           ("avg_duration", .flat (sortedLabels.map (fun lbl =>
              let s := cell lbl activity
              if 0 < s.count then round1 (s.duration / (s.count : ℚ)) else 0))),
           ("avg_energy", .flat (sortedLabels.map (fun lbl =>
              let s := cell lbl activity
              if 0 < s.count then round1 (s.energy / (s.count : ℚ)) else 0)))] })

/-- Embeds the data endpoint (src/app.py lines 213-349) end to end, minus
the in-memory cache (which only replays a previous fast-path response). -/
def apiData (dirs : List (String × List Row)) (activity sdStr edStr gran : String)
    (gb : Bool) : List FormattedYear :=
  if activity = "" then []
  else apiDataFormat activity gb gran
    (dataBuild dirs activity gb gran (parseDate sdStr) (parseDate edStr))

/-- Child element of a Workout XML element: a MetadataEntry carrying key and
value attributes, or a WorkoutStatistics element carrying its attribute
items. -/
inductive XChild where
  | meta (key? : Option String) (val : String)
  | stat (attrs : List (String × String))
deriving Repr

/-- Workout XML element delivered by iterparse before any document-level
failure: its attribute items plus its child elements. -/
structure WorkoutElem where
  attrs : List (String × String)
  children : List XChild
deriving Repr

/-- Reads an attribute; elem.get(k). -/
def getAttr (e : WorkoutElem) (k : String) : Option String := lookupA e.attrs k

/-- Strips the vendor prefix from a workout activity identifier
(src/parser.py line 27 and src/process_data.py line 326). -/
def stripActivity (s : String) : String :=
  if "HKWorkoutActivityType".toList.isPrefixOf s.toList then
    String.mk (s.toList.drop 21)
  else s

/-- Strips the quantity-type prefix from a statistic identifier
(src/process_data.py line 352). -/
def stripStat (s : String) : String :=
  if "HKQuantityTypeIdentifier".toList.isPrefixOf s.toList then
    String.mk (s.toList.drop 24)
  else s

/-- Dictionary assignment record[k] = v: overwrite an existing key,
otherwise append. -/
def setA (l : List (String × String)) (k v : String) : List (String × String) :=
  updA l k v (fun _ => v)

/-- Fixed-schema CSV row written by parse_workouts_to_csv. -/
structure CsvRow where
  startDate : String
  duration : String
  totalEnergyBurned : String
  totalDistance : String
deriving Repr, DecidableEq

/-- Embeds one Workout element of the parse_workouts_to_csv loop
(src/parser.py lines 22-53): a record without a truthy
workoutActivityType discriminator is skipped and the stream continues,
otherwise a CSV row with the per-attribute defaults is appended to that
activity's file. -/
def pwStep (fs : List (String × List CsvRow)) (e : WorkoutElem) :
    List (String × List CsvRow) :=
  match getAttr e "workoutActivityType" with
  | none => fs
  | some a =>
    if a = "" then fs
    else
      updA fs (stripActivity a) [] (fun rows => rows ++
        [{ startDate := (getAttr e "startDate").getD "",
           duration := (getAttr e "duration").getD "0",
           totalEnergyBurned := (getAttr e "totalEnergyBurned").getD "0",
           totalDistance := (getAttr e "totalDistance").getD "0" }])

/-- CSV files written by parse_workouts_to_csv for a delivered element
sequence; they persist on disk whether or not the document later fails
(the handles close in the finally block). -/
def pwFiles (elems : List WorkoutElem) : List (String × List CsvRow) :=
  elems.foldl pwStep []

/-- Embeds parse_workouts_to_csv (src/parser.py lines 7-61) over the
sequence of Workout elements the streaming parser delivered before an
optional document-level parse failure.  When the document fails to parse,
the exception is printed and re-raised (line 57), so the caller sees the
error; the error case carries the files already on disk. -/
def parse_workouts_to_csv (elems : List WorkoutElem) (docError : Bool) :
    Except (List (String × List CsvRow)) (List (String × List CsvRow)) :=
  if docError then .error (pwFiles elems) else .ok (pwFiles elems)

/-- Builds the flattened JSONL record of one Workout element in the
process_data extraction pass: all element attributes, then meta_ columns
from MetadataEntry children and stat_ columns from WorkoutStatistics
children (src/process_data.py lines 339-357). -/
def buildRecord (e : WorkoutElem) : List (String × String) :=
  e.children.foldl (fun rec c =>
    match c with
    | .meta key? v =>
      match key? with
      | some k => if k ≠ "" then setA rec ("meta_" ++ k) v else rec
      | none => rec
    | .stat attrs =>
      match lookupA attrs "type" with
      | some t0 =>
        if t0 ≠ "" then
          attrs.foldl (fun rc kv =>
            if kv.1 ≠ "type" then
              setA rc ("stat_" ++ stripStat t0 ++ "_" ++ kv.1) kv.2
            else rc) rec
        else rec
      | none => rec) e.attrs

/-- JSONL files written by pass 1 of process_data for a delivered element
sequence (src/process_data.py lines 323-364). -/
def p1Files (elems : List WorkoutElem) :
    List (String × List (List (String × String))) :=
  elems.foldl (fun fs e =>
    match getAttr e "workoutActivityType" with
    | none => fs
    | some a =>
      if a = "" then fs
      else updA fs (stripActivity a) [] (fun rs => rs ++ [buildRecord e])) []

/-- Embeds pass 1 of process_data (src/process_data.py lines 314-374) over
the delivered element sequence.  A document-level parse failure is caught
and printed (lines 370-371) but never re-raised: the pass always returns
normally with the records extracted so far, so the result is ok regardless
of the docError flag. -/
def processPass1 (elems : List WorkoutElem) (docError : Bool) :
    Except Unit (List (String × List (List (String × String)))) :=
  let _ := docError
  .ok (p1Files elems)

/-- Embeds strptime(s, with the exact ten-character date format used by the
statistics endpoint for its filter bounds: trailing characters fail. -/
def parseDateFull (s : String) : Option HDate :=
  if s.toList.length = 10 then parseDate s else none

/-- Embeds aggregate_metric_by_date (src/app.py lines 69-125); csv is none
when the backing file does not exist, returning the explicit empty list
before any scan. -/
def aggregate_metric_by_date (csv : Option (List Row)) (dateCol valCol : String)
    (sdStr edStr : String) (dsName : String) (gran : String) : List FormattedYear :=
  match csv with
  | none => []
  | some rows =>
    let sd := parseDate sdStr
    let ed := parseDate edStr
    let st := rows.foldl (fun st r =>
      match parseDate ((rowGet r dateCol).getD "") with
      | none => st
      | some dt =>
        if beforeStart sd dt then st
        else if afterEnd ed dt then st
        else
          let label := if gran = "daily" then dateToString dt else monthName dt.month
          updA st dt.year ([] : List (String × ℚ)) (fun yd =>
            updA yd label 0 (fun v => v + safeFloat (rowGet r valCol) 0))) []
    (sortNat (st.map Prod.fst)).map (fun y =>
      let yd := getDA st y []
      let labels := if gran = "daily" then sortStr (yd.map Prod.fst)
        else monthOrder.filter (fun m => (lookupA yd m).isSome)
      { year := y, labels := labels,
        datasets := [(dsName, .flat (labels.map (fun lbl => getDA yd lbl 0)))] })

/-- Summary statistics response of the statistics endpoint (numeric fields
only; the date_range echo of the raw arguments is presentation). -/
structure StatsR where
  total_workouts : ℕ
  total_duration_minutes : ℚ
  total_energy_burned : ℚ
  total_distance : ℚ
  avg_workouts_per_week : ℚ
  avg_workouts_per_month : ℚ
  avg_duration_per_workout : ℚ
deriving Repr, DecidableEq

/-- Zero-valued statistics, the dictionary the endpoint initialises. -/
def statsInit : StatsR :=
  { total_workouts := 0, total_duration_minutes := 0, total_energy_burned := 0,
    total_distance := 0, avg_workouts_per_week := 0, avg_workouts_per_month := 0,
    avg_duration_per_workout := 0 }

/-- Running accumulator of the statistics scan. -/
structure StatsAcc where
  n : ℕ
  dur : ℚ
  en : ℚ
  di : ℚ
  days : List ℕ

/-- Minimum of a nonempty day list; Python min. -/
def minListN : List ℕ → ℕ
  | [] => 0
  | x :: xs => xs.foldl min x

/-- Maximum of a nonempty day list; Python max. -/
def maxListN : List ℕ → ℕ
  | [] => 0
  | x :: xs => xs.foldl max x

/-- Embeds the statistics endpoint (src/app.py lines 422-525).  A missing
processed directory returns the zero-valued summary at once (lines
461-462).  The week and month rates divide the filtered workout count by
the observed date span in weeks (seven days) and months (30.44 days,
embedded as the exact rational 3044/100); every numeric output is rounded
to two decimals. -/
def getStatistics (fs : Option (List (String × List Row))) (sdStr edStr : String) :
    StatsR :=
  match fs with
  | none => statsInit
  | some dirs =>
    let sd := parseDateFull sdStr
    let ed := parseDateFull edStr
    let acc := (dirs.filter (fun d => ¬ d.1 ∈ specialDirs)).foldl (fun acc d =>
      d.2.foldl (fun (acc : StatsAcc) r =>
        match parseDate ((rowGet r "startDate").getD "") with
        | none => acc
        | some dt =>
          if beforeStart sd dt then acc
          else if afterEnd ed dt then acc
          else
            { n := acc.n + 1,
              dur := acc.dur + safeFloat (rowGet r "duration") 0,
              en := acc.en + safeFloat (pickTruthy (rowGet r "stat_ActiveEnergyBurned_sum")
                (rowGet r "totalEnergyBurned")) 0,
              di := acc.di + safeFloat (pickTruthy (rowGet r "stat_DistanceWalkingRunning_sum")
                (rowGet r "totalDistance")) 0,
              days := acc.days ++ [dayNumber dt] }) acc)
      { n := 0, dur := 0, en := 0, di := 0, days := [] }
    if 0 < acc.n then
      let totalDays : ℕ := maxListN acc.days - minListN acc.days + 1
      let weeks : ℚ := (totalDays : ℚ) / 7
      let months : ℚ := (totalDays : ℚ) * 100 / 3044
      { total_workouts := acc.n,
        total_duration_minutes := round2 acc.dur,
        total_energy_burned := round2 acc.en,
        total_distance := round2 acc.di,
        avg_duration_per_workout := round2 (acc.dur / (acc.n : ℚ)),
        avg_workouts_per_week := round2 (if 0 < weeks then (acc.n : ℚ) / weeks else 0),
        avg_workouts_per_month := round2 (if 0 < months then (acc.n : ℚ) / months else 0) }
    else statsInit

/-- One row of the workout detail listing. -/
structure WorkoutItem where
  activity : String
  startDate : String
  duration : ℚ
  energy : ℚ
  distance : ℚ
deriving Repr, DecidableEq

/-- Response page of the workout detail listing. -/
structure DetailsPage where
  data : List WorkoutItem
  total : ℕ
  page : ℕ
  per_page : ℕ
  total_pages : ℕ
deriving Repr, DecidableEq

/-- Embeds the workout detail endpoint (src/app.py lines 642-703).  Unlike
every other operation, the function calls os.listdir on the processed
directory without an existence check, so a missing directory raises
FileNotFoundError, embedded as the error case.  Otherwise rows are
filtered by activity and date range, sorted by date string descending and
paginated (page and per_page embedded as naturals, the served range). -/
def getWorkoutDetails (fs : Option (List (String × List Row))) (page perPage : ℕ)
    (activityFilter sdStr edStr : String) : Except Unit DetailsPage :=
  match fs with
  | none => .error ()
  | some dirs =>
    let sd := parseDate sdStr
    let ed := parseDate edStr
    let allW := dirs.foldl (fun acc d =>
      if d.1 ∈ specialDirs then acc
      else if activityFilter ≠ "" ∧ d.1 ≠ activityFilter then acc
      else acc ++ d.2.filterMap (fun r =>
        match parseDate ((rowGet r "startDate").getD "") with
        | none => none
        | some dt =>
          if beforeStart sd dt then none
          else if afterEnd ed dt then none
          else some
            { activity := d.1,
              startDate := (rowGet r "startDate").getD "",
              duration := round2 (safeFloat (rowGet r "duration") 0),
              energy := round2 (safeFloat (pickTruthy (rowGet r "stat_ActiveEnergyBurned_sum")
                (rowGet r "totalEnergyBurned")) 0),
              distance := round2 (safeFloat (pickTruthy (rowGet r "stat_DistanceWalkingRunning_sum")
                (rowGet r "totalDistance")) 0) })) []
    let sorted := List.insertionSort (fun a b => strLeB b.startDate a.startDate = true) allW
    .ok { data := (sorted.drop ((page - 1) * perPage)).take perPage,
          total := allW.length, page := page, per_page := perPage,
          total_pages := (allW.length + perPage - 1) / perPage }

/-- Embeds the longest-streak loop of the personal-records endpoint
(src/app.py lines 608-621): walk the sorted deduplicated day numbers, grow
the running streak on a difference of one day, otherwise bank it into the
maximum and restart at one. -/
def longestStreakAux : ℤ → ℕ → ℕ → List ℤ → ℕ
  | _, longest, temp, [] => max longest temp
  | prev, longest, temp, d :: ds =>
    if d = prev + 1 then longestStreakAux d longest (temp + 1) ds
    else longestStreakAux d (max longest temp) 1 ds

/-- Longest run of consecutive day numbers, as computed by the source loop
over a sorted duplicate-free list; zero for no workouts at all. -/
def longestStreak : List ℤ → ℕ
  | [] => 0
  | d :: ds => longestStreakAux d 0 1 ds

/-- Embeds the backwards walk of the current-streak loop (src/app.py lines
630-637): starting from the most recent day, extend while the previous
sorted entry is exactly one day earlier. -/
def goDesc : ℤ → List ℤ → ℕ → ℕ
  | _, [], c => c
  | x, y :: ys, c => if x = y + 1 then goDesc y ys (c + 1) else c

/-- Embeds the current-streak computation (src/app.py lines 624-638) on the
sorted deduplicated day list: zero when the most recent workout is two or
more days before today, otherwise the trailing run length. -/
def currentStreak (l : List ℤ) (today : ℤ) : ℕ :=
  match l.reverse with
  | [] => 0
  | x :: xs => if today - x ≤ 1 then goDesc x xs 1 else 0

/-- Longest-workout personal best. -/
structure LongestW where
  duration : ℚ
  activity : String
  date : String
deriving Repr, DecidableEq

/-- Most-active-month personal best. -/
structure MostActive where
  count : ℕ
  month : String
  year : ℕ
deriving Repr, DecidableEq

/-- Personal-records response. -/
structure RecordsR where
  longest_workout : LongestW
  most_active_month : MostActive
  current_streak : ℕ
  longest_streak : ℕ
deriving Repr, DecidableEq

/-- Initial records dictionary of the endpoint. -/
def recordsInit : RecordsR :=
  { longest_workout := { duration := 0, activity := "", date := "" },
    most_active_month := { count := 0, month := "", year := 0 },
    current_streak := 0, longest_streak := 0 }

/-- Day numbers of every row with a parseable start date, across all
non-special activity directories; the global_workouts list of the source,
appended before any date filtering (src/app.py lines 569-570). -/
def allWorkoutDays (dirs : List (String × List Row)) : List ℤ :=
  (dirs.filter (fun d => ¬ d.1 ∈ specialDirs)).foldl (fun acc d =>
    acc ++ d.2.filterMap (fun r =>
      (parseDate ((rowGet r "startDate").getD "")).map
        (fun dt => (dayNumber dt : ℤ)))) []

/-- Does the row pass the optional inclusive date filter. -/
def inRange (sd ed : Option HDate) (dt : HDate) : Bool :=
  !(beforeStart sd dt) && !(afterEnd ed dt)

/-- Does a row parse to a date inside the filter window. -/
def rowPass (sd ed : Option HDate) (r : Row) : Bool :=
  match parseDate ((rowGet r "startDate").getD "") with
  | some dt => inRange sd ed dt
  | none => false

/-- Shared per-row scan shape of the personal-records loop: skip rows whose
date fails to parse or falls outside the filter, update the accumulator on
the rest. -/
def rowFold {σ : Type} (upd : σ → Row → HDate → σ) (sd ed : Option HDate)
    (s : σ) (rows : List Row) : σ :=
  rows.foldl (fun s r =>
    match parseDate ((rowGet r "startDate").getD "") with
    | none => s
    | some dt => if inRange sd ed dt then upd s r dt else s) s

/-- Longest-workout fold over the date-filtered rows (src/app.py lines
572-582): a strictly longer duration replaces the record, ties keep the
first. -/
def longestWorkoutOf (dirs : List (String × List Row)) (sd ed : Option HDate) :
    LongestW :=
  (dirs.filter (fun d => ¬ d.1 ∈ specialDirs)).foldl (fun cur d =>
    rowFold (fun (cur : LongestW) r dt =>
      let dur := safeFloat (rowGet r "duration") 0
      if cur.duration < dur then
        { duration := round2 dur, activity := d.1, date := dateToString dt }
      else cur) sd ed cur d.2)
    { duration := 0, activity := "", date := "" }

/-- Month-count fold over the date-filtered rows (src/app.py lines
584-586), keyed by month name and year. -/
def monthlyCountsOf (dirs : List (String × List Row)) (sd ed : Option HDate) :
    List ((String × ℕ) × ℕ) :=
  (dirs.filter (fun d => ¬ d.1 ∈ specialDirs)).foldl (fun mc d =>
    rowFold (fun (mc : List ((String × ℕ) × ℕ)) _r dt =>
      updA mc (monthName dt.month, dt.year) 0 (fun c => c + 1)) sd ed mc d.2) []

/-- Embeds Python max over the monthly count items: the first maximum in
iteration order wins (src/app.py lines 591-598). -/
def mostActiveOf (mc : List ((String × ℕ) × ℕ)) : MostActive :=
  match mc with
  | [] => { count := 0, month := "", year := 0 }
  | e :: es =>
    let best := es.foldl (fun b x => if b.2 < x.2 then x else b) e
    { count := best.2, month := best.1.1, year := best.1.2 }

/-- Sorted deduplicated day list, sorted(set(global_workouts)). -/
def sortedUniqueDays (days : List ℤ) : List ℤ :=
  List.insertionSort (· ≤ ·) days.dedup

/-- Embeds the personal-records endpoint (src/app.py lines 528-640).  The
source loop appends every parseable workout date to the global list before
applying the date filter, so the streak fields are computed from the
complete unfiltered history while the two personal-best fields honor the
filter; the wall-clock date enters only the current-streak test.  The
independent accumulators of the single source loop are embedded as
separate folds over the same row sequence. -/
def getPersonalRecords (fs : Option (List (String × List Row)))
    (sdStr edStr : String) (today : ℤ) : RecordsR :=
  match fs with
  | none => recordsInit
  | some dirs =>
    let sd := parseDate sdStr
    let ed := parseDate edStr
    let days := sortedUniqueDays (allWorkoutDays dirs)
    { longest_workout := longestWorkoutOf dirs sd ed,
      most_active_month := mostActiveOf (monthlyCountsOf dirs sd ed),
      current_streak := currentStreak days today,
      longest_streak := longestStreak days }

/-- A run of k consecutive days starting at a, each containing a workout:
every day a, a+1, ..., a+k-1 appears in the day list. -/
def isRun (l : List ℤ) (a : ℤ) (k : ℕ) : Prop :=
  ∀ i : ℕ, i < k → a + (i : ℤ) ∈ l

/-- The set of activity directories with each row list restricted to the
rows whose date parses and lies inside the window. -/
def restrictDirs (dirs : List (String × List Row)) (sd ed : Option HDate) :
    List (String × List Row) :=
  dirs.map (fun d => (d.1, d.2.filter (rowPass sd ed)))

/-- Top-level keys of a year-keyed accumulator map are duplicate-free. -/
def NK1 {β : Type} (st : List (ℕ × β)) : Prop := (st.map Prod.fst).Nodup

/-- Keys are duplicate-free at both nesting levels of a year-to-label map. -/
def NK2 {β : Type} (st : List (ℕ × List (String × β))) : Prop :=
  (st.map Prod.fst).Nodup ∧ ∀ p ∈ st, (p.2.map Prod.fst).Nodup

/-- Every bucket list of a heart-rate query state is nonempty and holds only
strictly positive readings. -/
def HrPos (st : HrQueryState) : Prop :=
  ∀ p ∈ st, ∀ q ∈ p.2, q.2 ≠ [] ∧ ∀ v ∈ q.2, 0 < v

/-- All value arrays of a dataset entry have the given length. -/
def dsValOk (n : ℕ) : DSVal → Prop
  | .flat v => v.length = n
  | .grouped bs => ∀ b ∈ bs, b.2.length = n

/-- The Formatted Series invariant for one year entry: labels are a
subsequence of canonical month order under monthly granularity and strictly
lexicographically ascending under daily granularity, and every dataset
array is aligned with the labels. -/
def goodYear (gran : String) (fy : FormattedYear) : Prop :=
  (if gran = "daily" then fy.labels.Pairwise (fun a b => strLtB a b = true)
   else fy.labels.Sublist monthOrder) ∧
  ∀ ds ∈ fy.datasets, dsValOk fy.labels.length ds.2

/-- The Formatted Series invariant: years strictly ascending and every year
entry well-formed. -/
def goodSeries (gran : String) (out : List FormattedYear) : Prop :=
  (out.map FormattedYear.year).Pairwise (· < ·) ∧ ∀ fy ∈ out, goodYear gran fy

/-- A value with at most one decimal place, the image of round(x, 1). -/
def isTenth (q : ℚ) : Prop := ∃ z : ℤ, q = (z : ℚ) / 10

/-- Every numeric value of a dataset entry has at most one decimal place. -/
def dsValTenth : DSVal → Prop
  | .flat v => ∀ q ∈ v, isTenth q
  | .grouped bs => ∀ b ∈ bs, ∀ q ∈ b.2, isTenth q

/-- Concrete processed directory with four workouts on 2024-01-01, -02,
-03 and -05, the streak example of the specification. -/
def exampleDirs : List (String × List Row) :=
  [("Running",
    [[("startDate", "2024-01-01 08:00:00 +0000"), ("duration", "30")],
     [("startDate", "2024-01-02 08:00:00 +0000"), ("duration", "40")],
     [("startDate", "2024-01-03 08:00:00 +0000"), ("duration", "20")],
     [("startDate", "2024-01-05 08:00:00 +0000"), ("duration", "25")]])]

example : longestStreak [1, 2, 3, 5] = 3 := by decide
example : currentStreak [1, 2, 3, 5] 6 = 1 := by decide
example : currentStreak [1, 2, 3, 5] 7 = 0 := by decide
example : currentStreak [1, 2, 3, 4] 5 = 4 := by decide

section AListLemmas

variable {α β : Type} [DecidableEq α]

theorem lookupA_mem {l : List (α × β)} {k : α} {v : β}
    (h : lookupA l k = some v) : (k, v) ∈ l := by
  induction l with
  | nil => simp [lookupA] at h
  | cons p t ih =>
    obtain ⟨k', v'⟩ := p
    by_cases hk : k = k'
    · subst hk
      simp [lookupA] at h
      simp [h]
    · simp [lookupA, hk] at h
      exact List.mem_cons_of_mem _ (ih h)

theorem mem_updA {l : List (α × β)} {k : α} {d : β} {f : β → β} {x : α × β}
    (h : x ∈ updA l k d f) :
    x ∈ l ∨ x = (k, f ((lookupA l k).getD d)) := by
  induction l with
  | nil => simp [updA, lookupA] at h ⊢; exact h
  | cons p t ih =>
    obtain ⟨k', v'⟩ := p
    by_cases hk : k = k'
    · subst hk
      simp only [updA, if_true, eq_self_iff_true, List.mem_cons] at h
      rcases h with h | h
      · right; simp [lookupA, h]
      · left; exact List.mem_cons_of_mem _ h
    · simp only [updA, if_neg hk, List.mem_cons] at h
      rcases h with h | h
      · exact Or.inl (by simp [h])
      · rcases ih h with h2 | h2
        · exact Or.inl (List.mem_cons_of_mem _ h2)
        · right
          rw [h2]
          have : lookupA ((k', v') :: t) k = lookupA t k := by
            simp [lookupA, hk]
          rw [this]

theorem keys_updA (l : List (α × β)) (k : α) (d : β) (f : β → β) :
    (updA l k d f).map Prod.fst =
      if k ∈ l.map Prod.fst then l.map Prod.fst else l.map Prod.fst ++ [k] := by
  induction l with
  | nil => simp [updA]
  | cons p t ih =>
    obtain ⟨k', v'⟩ := p
    by_cases hk : k = k'
    · subst hk
      simp [updA]
    · simp only [updA, if_neg hk, List.map_cons, ih]
      by_cases hm : k ∈ t.map Prod.fst
      · simp [hm, hk]
      · simp [hm, hk]

theorem nodup_keys_updA {l : List (α × β)} (k : α) (d : β) (f : β → β)
    (h : (l.map Prod.fst).Nodup) : ((updA l k d f).map Prod.fst).Nodup := by
  rw [keys_updA]
  by_cases hm : k ∈ l.map Prod.fst
  · simpa [hm]
  · simp only [hm, if_false]
    rw [List.nodup_append]
    refine ⟨h, List.nodup_singleton _, ?_⟩
    intro a ha hb
    simp at hb
    exact hm (hb ▸ ha)

theorem lookupA_updA_self (l : List (α × β)) (k : α) (d : β) (f : β → β) :
    lookupA (updA l k d f) k = some (f ((lookupA l k).getD d)) := by
  induction l with
  | nil => simp [updA, lookupA]
  | cons p t ih =>
    obtain ⟨k', v'⟩ := p
    by_cases hk : k = k'
    · subst hk; simp [updA, lookupA]
    · simp [updA, hk, lookupA, ih]

theorem lookupA_updA_ne (l : List (α × β)) {k q : α} (d : β) (f : β → β)
    (h : q ≠ k) : lookupA (updA l k d f) q = lookupA l q := by
  induction l with
  | nil => simp [updA, lookupA, h]
  | cons p t ih =>
    obtain ⟨k', v'⟩ := p
    by_cases hk : k = k'
    · subst hk; simp [updA, lookupA, h]
    · by_cases hq : q = k'
      · subst hq; simp [updA, hk, lookupA]
      · simp [updA, hk, lookupA, hq, ih]

end AListLemmas

section OrderLemmas

theorem lexLeB_total : ∀ a b : List Char, lexLeB a b = true ∨ lexLeB b a = true := by
  intro a
  induction a with
  | nil => intro b; left; simp [lexLeB]
  | cons x xs ih =>
    intro b
    cases b with
    | nil => right; simp [lexLeB]
    | cons y ys =>
      rcases Nat.lt_trichotomy x.toNat y.toNat with h | h | h
      · left; simp [lexLeB, h]
      · rcases ih ys with h2 | h2
        · left; simp [lexLeB, h, h2]
        · right; simp [lexLeB, h.symm, h2]
      · right; simp [lexLeB, h]

theorem lexLeB_trans : ∀ a b c : List Char,
    lexLeB a b = true → lexLeB b c = true → lexLeB a c = true := by
  intro a
  induction a with
  | nil => intro b c _ _; simp [lexLeB]
  | cons x xs ih =>
    intro b c hab hbc
    cases b with
    | nil => simp [lexLeB] at hab
    | cons y ys =>
      cases c with
      | nil => simp [lexLeB] at hbc
      | cons z zs =>
        simp only [lexLeB] at hab hbc ⊢
        split_ifs at hab hbc ⊢ <;>
          first
            | rfl
            | (exact ih ys zs hab hbc)
            | (exfalso; omega)

theorem lexLeB_antisymm : ∀ a b : List Char,
    lexLeB a b = true → lexLeB b a = true → a = b := by
  intro a
  induction a with
  | nil =>
    intro b _ hba
    cases b with
    | nil => rfl
    | cons y ys => simp [lexLeB] at hba
  | cons x xs ih =>
    intro b hab hba
    cases b with
    | nil => simp [lexLeB] at hab
    | cons y ys =>
      simp only [lexLeB] at hab hba
      by_cases hxy : x.toNat < y.toNat
      · simp [hxy, Nat.lt_asymm hxy] at hba
      · by_cases hyx : y.toNat < x.toNat
        · simp [hxy, hyx] at hab
        · have hx : x.toNat = y.toNat :=
            Nat.le_antisymm (Nat.le_of_not_lt hyx) (Nat.le_of_not_lt hxy)
          have hc : x = y := Char.ext (UInt32.ext hx)
          subst hc
          simp [hxy] at hab hba
          rw [ih ys hab hba]

instance strLeIsTotal : IsTotal String (fun a b => strLeB a b = true) :=
  ⟨fun a b => lexLeB_total a.toList b.toList⟩

instance strLeIsTrans : IsTrans String (fun a b => strLeB a b = true) :=
  ⟨fun a b c => lexLeB_trans a.toList b.toList c.toList⟩

theorem strLeB_antisymm {a b : String} (hab : strLeB a b = true)
    (hba : strLeB b a = true) : a = b := by
  have h := lexLeB_antisymm a.toList b.toList hab hba
  cases a; cases b
  simp only [String.toList] at h
  exact congrArg String.mk h

theorem pairwise_strLt_of_sorted_nodup {l : List String}
    (hs : List.Pairwise (fun a b => strLeB a b = true) l) (hn : l.Nodup) :
    List.Pairwise (fun a b => strLtB a b = true) l := by
  refine (hs.and hn).imp ?_
  rintro a b ⟨hle, hne⟩
  simp [strLtB, hle]
  intro h
  exact absurd h hne

theorem sortStr_pairwise_strLt {l : List String} (hn : l.Nodup) :
    List.Pairwise (fun a b => strLtB a b = true) (sortStr l) := by
  refine pairwise_strLt_of_sorted_nodup ?_ ?_
  · exact List.sorted_insertionSort _ l
  · exact (List.perm_insertionSort _ l).nodup_iff.mpr hn

theorem sortNat_pairwise_lt {l : List ℕ} (hn : l.Nodup) :
    List.Pairwise (· < ·) (sortNat l) := by
  have hs : List.Pairwise (· ≤ ·) (sortNat l) := List.sorted_insertionSort _ l
  have hn2 : (sortNat l).Nodup := (List.perm_insertionSort _ l).nodup_iff.mpr hn
  exact (hs.and hn2).imp (fun h => lt_of_le_of_ne h.1 h.2)

theorem sortedUniqueDays_chain (days : List ℤ) :
    List.Pairwise (· < ·) (sortedUniqueDays days) := by
  have hs : List.Pairwise (· ≤ ·) (sortedUniqueDays days) :=
    List.sorted_insertionSort _ _
  have hn : (sortedUniqueDays days).Nodup :=
    (List.perm_insertionSort _ _).nodup_iff.mpr days.nodup_dedup
  exact (hs.and hn).imp (fun h => lt_of_le_of_ne h.1 h.2)

theorem mem_sortedUniqueDays {days : List ℤ} {x : ℤ} :
    x ∈ sortedUniqueDays days ↔ x ∈ days := by
  rw [sortedUniqueDays]
  rw [(List.perm_insertionSort _ _).mem_iff]
  exact List.mem_dedup

end OrderLemmas

section StreakLemmas

theorem longestStreakAux_run (l : List ℤ) :
    ∀ (ds : List ℤ) (prev : ℤ) (longest temp : ℕ) (s : ℤ),
      isRun l s temp → s + (temp : ℤ) = prev + 1 → 1 ≤ temp →
      (∃ a, isRun l a longest) → (∀ d ∈ ds, d ∈ l) →
      ∃ a, isRun l a (longestStreakAux prev longest temp ds) := by
  intro ds
  induction ds with
  | nil =>
    intro prev longest temp s hrun _ _ hlong _
    simp only [longestStreakAux]
    rcases Nat.le_total longest temp with h | h
    · rw [Nat.max_eq_right h]; exact ⟨s, hrun⟩
    · rw [Nat.max_eq_left h]; exact hlong
  | cons d ds ih =>
    intro prev longest temp s hrun hends htemp hlong hmem
    simp only [longestStreakAux]
    by_cases hd : d = prev + 1
    · rw [if_pos hd]
      apply ih d longest (temp + 1) s
      · intro i hi
        rcases Nat.lt_or_ge i temp with h2 | h2
        · exact hrun i h2
        · have hie : i = temp := by omega
          subst hie
          have hsd : s + (i : ℤ) = d := by omega
          rw [hsd]
          exact hmem d (List.mem_cons_self d ds)
      · push_cast
        omega
      · omega
      · exact hlong
      · exact fun e he => hmem e (List.mem_cons_of_mem _ he)
    · rw [if_neg hd]
      apply ih d (max longest temp) 1 d
      · intro i hi
        have hie : i = 0 := by omega
        subst hie
        simpa using hmem d (List.mem_cons_self d ds)
      · push_cast
        ring
      · omega
      · rcases Nat.le_total longest temp with h | h
        · rw [Nat.max_eq_right h]; exact ⟨s, hrun⟩
        · rw [Nat.max_eq_left h]; exact hlong
      · exact fun e he => hmem e (List.mem_cons_of_mem _ he)

theorem longestStreak_run (l : List ℤ) : ∃ a, isRun l a (longestStreak l) := by
  cases l with
  | nil =>
    refine ⟨0, ?_⟩
    intro i hi
    simp [longestStreak] at hi
  | cons d ds =>
    simp only [longestStreak]
    apply longestStreakAux_run (d :: ds) ds d 0 1 d
    · intro i hi
      have hie : i = 0 := by omega
      subst hie
      simp
    · push_cast
      ring
    · omega
    · exact ⟨0, fun i hi => absurd hi (by omega)⟩
    · exact fun e he => List.mem_cons_of_mem _ he

theorem longestStreakAux_ub (l : List ℤ) :
    ∀ (ds : List ℤ) (prev : ℤ) (longest temp : ℕ),
      List.Pairwise (· < ·) (prev :: ds) →
      (∀ x ∈ l, x ≤ prev ∨ x ∈ ds) →
      (∀ (k : ℕ) (a : ℤ), isRun l a k → a + (k : ℤ) = prev + 1 → k ≤ temp) →
      (∀ (k : ℕ) (a : ℤ), isRun l a k → a + (k : ℤ) ≤ prev + 1 → k ≤ max longest temp) →
      ∀ (k : ℕ) (a : ℤ), isRun l a k → k ≤ longestStreakAux prev longest temp ds := by
  intro ds
  induction ds with
  | nil =>
    intro prev longest temp _ hup _ hall k a hrun
    simp only [longestStreakAux]
    rcases Nat.eq_zero_or_pos k with hk | hk
    · subst hk; exact Nat.zero_le _
    · have hlast : a + ((k - 1 : ℕ) : ℤ) ∈ l := hrun (k - 1) (by omega)
      have h1 : a + ((k - 1 : ℕ) : ℤ) ≤ prev := by
        rcases hup _ hlast with h | h
        · exact h
        · exact absurd h (List.not_mem_nil _)
      exact hall k a hrun (by omega)
  | cons d ds ih =>
    intro prev longest temp hpair hup hend hall k a hrun
    obtain ⟨hhead, htail⟩ := List.pairwise_cons.mp hpair
    have hpd : prev < d := hhead d (List.mem_cons_self d ds)
    have hdgt : ∀ x ∈ ds, d < x := (List.pairwise_cons.mp htail).1
    simp only [longestStreakAux]
    have hup' : ∀ x ∈ l, x ≤ d ∨ x ∈ ds := by
      intro x hx
      rcases hup x hx with h | h
      · left; omega
      · rcases List.mem_cons.mp h with h | h
        · left; omega
        · right; exact h
    by_cases hd : d = prev + 1
    · rw [if_pos hd]
      have hend' : ∀ (k2 : ℕ) (a2 : ℤ), isRun l a2 k2 →
          a2 + (k2 : ℤ) = d + 1 → k2 ≤ temp + 1 := by
        intro k2 a2 hrun2 he2
        rcases Nat.lt_or_ge k2 2 with h2 | h2
        · omega
        · have hsub : isRun l a2 (k2 - 1) := fun i hi => hrun2 i (by omega)
          have hcast : a2 + ((k2 - 1 : ℕ) : ℤ) = prev + 1 := by omega
          have := hend (k2 - 1) a2 hsub hcast
          omega
      have hall' : ∀ (k2 : ℕ) (a2 : ℤ), isRun l a2 k2 →
          a2 + (k2 : ℤ) ≤ d + 1 → k2 ≤ max longest (temp + 1) := by
        intro k2 a2 hrun2 hle
        rcases eq_or_lt_of_le hle with heq | hlt
        · exact le_trans (hend' k2 a2 hrun2 heq) (le_max_right _ _)
        · have hle2 : a2 + (k2 : ℤ) ≤ prev + 1 := by omega
          exact le_trans (hall k2 a2 hrun2 hle2)
            (max_le_max (le_refl longest) (by omega))
      exact ih d longest (temp + 1) htail hup' hend' hall' k a hrun
    · rw [if_neg hd]
      have hd2 : prev + 2 ≤ d := by omega
      have hnotin : (d - 1) ∉ l := by
        intro hmem2
        rcases hup _ hmem2 with h | h
        · omega
        · rcases List.mem_cons.mp h with h | h
          · omega
          · have := hdgt _ h; omega
      have hend' : ∀ (k2 : ℕ) (a2 : ℤ), isRun l a2 k2 →
          a2 + (k2 : ℤ) = d + 1 → k2 ≤ 1 := by
        intro k2 a2 hrun2 he2
        by_contra hgt
        have h2 : 2 ≤ k2 := by omega
        have hm := hrun2 (k2 - 2) (by omega)
        have hcast : a2 + ((k2 - 2 : ℕ) : ℤ) = d - 1 := by omega
        rw [hcast] at hm
        exact hnotin hm
      have hall' : ∀ (k2 : ℕ) (a2 : ℤ), isRun l a2 k2 →
          a2 + (k2 : ℤ) ≤ d + 1 → k2 ≤ max (max longest temp) 1 := by
        intro k2 a2 hrun2 hle
        rcases eq_or_lt_of_le hle with heq | hlt
        · exact le_trans (hend' k2 a2 hrun2 heq) (le_max_right _ _)
        · rcases Nat.eq_zero_or_pos k2 with h0 | h1
          · subst h0; exact Nat.zero_le _
          · have hlast := hrun2 (k2 - 1) (by omega)
            have hlastle : a2 + ((k2 - 1 : ℕ) : ℤ) ≤ prev := by
              rcases hup _ hlast with h | h
              · exact h
              · rcases List.mem_cons.mp h with h | h
                · exfalso; omega
                · exfalso; have := hdgt _ h; omega
            have hle2 : a2 + (k2 : ℤ) ≤ prev + 1 := by omega
            exact le_trans (hall k2 a2 hrun2 hle2) (le_max_left _ _)
      exact ih d (max longest temp) 1 htail hup' hend' hall' k a hrun

theorem longestStreak_ub {l : List ℤ} (hsort : List.Pairwise (· < ·) l) :
    ∀ (k : ℕ) (a : ℤ), isRun l a k → k ≤ longestStreak l := by
  cases l with
  | nil =>
    intro k a hrun
    rcases Nat.eq_zero_or_pos k with h0 | h1
    · simp [longestStreak, h0]
    · exact absurd (hrun 0 (by omega)) (List.not_mem_nil _)
  | cons d ds =>
    obtain ⟨hhead, _⟩ := List.pairwise_cons.mp hsort
    have hge : ∀ x ∈ d :: ds, d ≤ x := by
      intro x hx
      rcases List.mem_cons.mp hx with h | h
      · omega
      · exact le_of_lt (hhead x h)
    intro k a hrun
    simp only [longestStreak]
    refine longestStreakAux_ub (d :: ds) ds d 0 1 hsort ?_ ?_ ?_ k a hrun
    · intro x hx
      rcases List.mem_cons.mp hx with h | h
      · left; omega
      · right; exact h
    · intro k2 a2 hrun2 he2
      by_contra hgt
      have h2 : 2 ≤ k2 := by omega
      have hm := hrun2 (k2 - 2) (by omega)
      have := hge _ hm
      omega
    · intro k2 a2 hrun2 hle
      rcases Nat.eq_zero_or_pos k2 with h0 | h1
      · subst h0; exact Nat.zero_le _
      · rcases eq_or_lt_of_le hle with heq | hlt
        · by_contra hgt
          have h2 : 2 ≤ k2 := by omega
          have hm := hrun2 (k2 - 2) (by omega)
          have := hge _ hm
          omega
        · have hm := hrun2 (k2 - 1) (by omega)
          have := hge _ hm
          omega

theorem goDesc_run (l : List ℤ) :
    ∀ (ys : List ℤ) (prev : ℤ) (c : ℕ) (x : ℤ),
      (∀ i : ℕ, i < c → x - (i : ℤ) ∈ l) → prev + (c : ℤ) = x + 1 →
      (∀ y ∈ ys, y ∈ l) →
      ∀ i : ℕ, i < goDesc prev ys c → x - (i : ℤ) ∈ l := by
  intro ys
  induction ys with
  | nil =>
    intro prev c x hrun _ _ i hi
    simp only [goDesc] at hi
    exact hrun i hi
  | cons y ys ih =>
    intro prev c x hrun hpc hmem
    simp only [goDesc]
    by_cases hy : prev = y + 1
    · rw [if_pos hy]
      apply ih y (c + 1) x
      · intro i hi
        rcases Nat.lt_or_ge i c with h2 | h2
        · exact hrun i h2
        · have hie : i = c := by omega
          subst hie
          have hxc : x - (i : ℤ) = y := by omega
          rw [hxc]
          exact hmem y (List.mem_cons_self y ys)
      · push_cast
        omega
      · exact fun e he => hmem e (List.mem_cons_of_mem _ he)
    · rw [if_neg hy]
      exact fun i hi => hrun i hi

theorem goDesc_ub (l : List ℤ) :
    ∀ (ys : List ℤ) (prev : ℤ) (c : ℕ) (x : ℤ),
      List.Pairwise (· > ·) (prev :: ys) →
      (∀ y ∈ l, prev ≤ y ∨ y ∈ ys) →
      prev + (c : ℤ) = x + 1 →
      ∀ k : ℕ, (∀ i : ℕ, i < k → x - (i : ℤ) ∈ l) → k ≤ goDesc prev ys c := by
  intro ys
  induction ys with
  | nil =>
    intro prev c x _ hup hpc k hrun
    simp only [goDesc]
    by_contra hgt
    have hm := hrun c (by omega)
    rcases hup _ hm with h | h
    · omega
    · exact absurd h (List.not_mem_nil _)
  | cons y ys ih =>
    intro prev c x hpair hup hpc k hrun
    obtain ⟨hhead, htail⟩ := List.pairwise_cons.mp hpair
    have hpy : y < prev := hhead y (List.mem_cons_self y ys)
    have hylt : ∀ z ∈ ys, z < y := by
      intro z hz
      exact (List.pairwise_cons.mp htail).1 z hz
    simp only [goDesc]
    by_cases hy : prev = y + 1
    · rw [if_pos hy]
      apply ih y (c + 1) x htail
      · intro z hz
        rcases hup z hz with h | h
        · left; omega
        · rcases List.mem_cons.mp h with h | h
          · left; omega
          · right; exact h
      · push_cast
        omega
      · exact hrun
    · rw [if_neg hy]
      by_contra hgt
      have hm := hrun c (by omega)
      rcases hup _ hm with h | h
      · omega
      · rcases List.mem_cons.mp h with h | h
        · omega
        · have := hylt _ h
          omega

end StreakLemmas

section FoldLemmas

theorem foldl_preserve {σ τ : Type} {P : σ → Prop} (f : σ → τ → σ)
    (h : ∀ s t, P s → P (f s t)) :
    ∀ (l : List τ) (s : σ), P s → P (l.foldl f s) := by
  intro l
  induction l with
  | nil => intro s hs; exact hs
  | cons t ts ih => intro s hs; exact ih _ (h s t hs)

theorem inRange_none_none (dt : HDate) : inRange none none dt = true := rfl

theorem rowFold_cons {σ : Type} (upd : σ → Row → HDate → σ) (sd ed : Option HDate)
    (s : σ) (r : Row) (rs : List Row) :
    rowFold upd sd ed s (r :: rs) = rowFold upd sd ed
      (match parseDate ((rowGet r "startDate").getD "") with
       | none => s
       | some dt => if inRange sd ed dt then upd s r dt else s) rs := rfl

theorem rowFold_restrict {σ : Type} (upd : σ → Row → HDate → σ)
    (sd ed : Option HDate) :
    ∀ (rows : List Row) (s : σ),
      rowFold upd none none s (rows.filter (rowPass sd ed)) =
        rowFold upd sd ed s rows := by
  intro rows
  induction rows with
  | nil => intro s; rfl
  | cons r rs ih =>
    intro s
    cases hdt : parseDate ((rowGet r "startDate").getD "") with
    | none =>
      have hp : rowPass sd ed r = false := by simp [rowPass, hdt]
      rw [List.filter_cons_of_neg (by simp [hp])]
      have h2 : rowFold upd sd ed s (r :: rs) = rowFold upd sd ed s rs := by
        rw [rowFold_cons upd sd ed s r rs, hdt]
      rw [h2]
      exact ih s
    | some dt =>
      by_cases hin : inRange sd ed dt = true
      · have hp : rowPass sd ed r = true := by simp [rowPass, hdt, hin]
        rw [List.filter_cons_of_pos hp]
        have h1 : rowFold upd none none s (r :: rs.filter (rowPass sd ed)) =
            rowFold upd none none (upd s r dt) (rs.filter (rowPass sd ed)) := by
          rw [rowFold_cons upd none none s r (rs.filter (rowPass sd ed)), hdt]
          simp [inRange_none_none dt]
        have h2 : rowFold upd sd ed s (r :: rs) =
            rowFold upd sd ed (upd s r dt) rs := by
          rw [rowFold_cons upd sd ed s r rs, hdt]
          simp [hin]
        rw [h1, h2]
        exact ih (upd s r dt)
      · rw [Bool.not_eq_true] at hin
        have hp : rowPass sd ed r = false := by simp [rowPass, hdt, hin]
        rw [List.filter_cons_of_neg (by simp [hp])]
        have h2 : rowFold upd sd ed s (r :: rs) = rowFold upd sd ed s rs := by
          rw [rowFold_cons upd sd ed s r rs, hdt]
          simp [hin]
        rw [h2]
        exact ih s

theorem filter_restrictDirs (dirs : List (String × List Row))
    (sd ed : Option HDate) :
    (restrictDirs dirs sd ed).filter (fun d => ¬ d.1 ∈ specialDirs) =
      restrictDirs (dirs.filter (fun d => ¬ d.1 ∈ specialDirs)) sd ed := by
  unfold restrictDirs
  rw [List.filter_map]
  rfl

theorem foldl_rowFold_restrict {σ : Type} (updf : String → σ → Row → HDate → σ)
    (sd ed : Option HDate) :
    ∀ (ds : List (String × List Row)) (cur : σ),
      (restrictDirs ds sd ed).foldl
          (fun cur d => rowFold (updf d.1) none none cur d.2) cur =
        ds.foldl (fun cur d => rowFold (updf d.1) sd ed cur d.2) cur := by
  intro ds
  induction ds with
  | nil => intro cur; rfl
  | cons d ds ih =>
    intro cur
    have hcons : restrictDirs (d :: ds) sd ed =
        (d.1, d.2.filter (rowPass sd ed)) :: restrictDirs ds sd ed := rfl
    rw [hcons, List.foldl_cons, List.foldl_cons, rowFold_restrict]
    exact ih _

theorem longestWorkoutOf_restrict (dirs : List (String × List Row))
    (sd ed : Option HDate) :
    longestWorkoutOf (restrictDirs dirs sd ed) none none =
      longestWorkoutOf dirs sd ed := by
  unfold longestWorkoutOf
  rw [filter_restrictDirs]
  exact foldl_rowFold_restrict
    (fun name (cur : LongestW) r dt =>
      let dur := safeFloat (rowGet r "duration") 0
      if cur.duration < dur then
        { duration := round2 dur, activity := name, date := dateToString dt }
      else cur) sd ed _ _

theorem monthlyCountsOf_restrict (dirs : List (String × List Row))
    (sd ed : Option HDate) :
    monthlyCountsOf (restrictDirs dirs sd ed) none none =
      monthlyCountsOf dirs sd ed := by
  unfold monthlyCountsOf
  rw [filter_restrictDirs]
  exact foldl_rowFold_restrict
    (fun _name mc _r dt =>
      updA mc (monthName dt.month, dt.year) 0 (fun c => c + 1)) sd ed _ _

end FoldLemmas

section InvariantLemmas

theorem NK2_nil {β : Type} : NK2 ([] : List (ℕ × List (String × β))) :=
  ⟨List.nodup_nil, by simp⟩

theorem NK2_updA2 {β : Type} {st : List (ℕ × List (String × β))} (h : NK2 st)
    (y : ℕ) (label : String) (d : β) (f : β → β) :
    NK2 (updA st y [] (fun yd => updA yd label d f)) := by
  obtain ⟨h1, h2⟩ := h
  constructor
  · exact nodup_keys_updA _ _ _ h1
  · intro p hp
    rcases mem_updA hp with hin | heq
    · exact h2 p hin
    · rw [heq]
      apply nodup_keys_updA
      cases hl : lookupA st y with
      | none => simp
      | some yd =>
        simp only [hl, Option.getD_some]
        exact h2 (y, yd) (lookupA_mem hl)

theorem dataRowStep_NK2 (gb : Bool) (gran : String) (sd ed : Option HDate)
    (act : String) (st : DataState) (r : Row) (h : NK2 st) :
    NK2 (dataRowStep gb gran sd ed act st r) := by
  unfold dataRowStep
  split
  · exact h
  · split
    · exact h
    · split
      · exact h
      · exact NK2_updA2 h _ _ _ _

theorem dataBuild_NK2 (dirs : List (String × List Row)) (activity : String)
    (gb : Bool) (gran : String) (sd ed : Option HDate) :
    NK2 (dataBuild dirs activity gb gran sd ed) := by
  unfold dataBuild
  apply foldl_preserve
  · intro s t hs
    split
    · exact hs
    · exact foldl_preserve _ (fun s2 r hs2 => dataRowStep_NK2 _ _ _ _ _ _ _ hs2) _ _ hs
  · exact NK2_nil

theorem wBump_NK1 {st : WAggState} (y : ℕ) (m : String) (f : WStats → WStats)
    (h : NK1 st) : NK1 (wBump st y m f) :=
  nodup_keys_updA _ _ _ h

theorem pdWorkoutStep_NK1 (st : WAggState) (r : Row) (h : NK1 st) :
    NK1 (pdWorkoutStep st r) := by
  unfold pdWorkoutStep
  dsimp only
  split
  · exact h
  · split
    · exact h
    · split
      · exact wBump_NK1 _ _ _ h
      · split
        · exact wBump_NK1 _ _ _ (wBump_NK1 _ _ _ h)
        · split
          · exact wBump_NK1 _ _ _ (wBump_NK1 _ _ _ (wBump_NK1 _ _ _ h))
          · exact wBump_NK1 _ _ _ (wBump_NK1 _ _ _ (wBump_NK1 _ _ _ (wBump_NK1 _ _ _ h)))

theorem pdWorkoutAgg_NK1 (rows : List Row) : NK1 (pdWorkoutAgg rows) :=
  foldl_preserve _ (fun s r hs => pdWorkoutStep_NK1 s r hs) rows [] List.nodup_nil

theorem afcStep_NK1 (st : WAggState) (r : WRow) (h : NK1 st) :
    NK1 (afcStep st r) := by
  unfold afcStep
  dsimp only
  split
  · exact h
  · split
    · exact wBump_NK1 _ _ _ h
    · split
      · exact wBump_NK1 _ _ _ (wBump_NK1 _ _ _ h)
      · split
        · exact wBump_NK1 _ _ _ (wBump_NK1 _ _ _ (wBump_NK1 _ _ _ h))
        · exact wBump_NK1 _ _ _ (wBump_NK1 _ _ _ (wBump_NK1 _ _ _ (wBump_NK1 _ _ _ h)))

theorem aggregate_from_csv_NK1 (rows : List WRow) : NK1 (aggregate_from_csv rows) :=
  foldl_preserve _ (fun s r hs => afcStep_NK1 s r hs) rows [] List.nodup_nil

theorem hrQueryStep_pos (sd ed : Option HDate) (st : HrQueryState) (r : HrRow)
    (h : HrPos st) : HrPos (hrQueryStep sd ed st r) := by
  unfold hrQueryStep
  dsimp only
  split
  · exact h
  · rename_i dt _
    split
    · exact h
    · split
      · exact h
      · split
        · rename_i hval
          intro p hp
          rcases mem_updA hp with hin | heq
          · exact h p hin
          · rw [heq]
            intro q hq
            rcases mem_updA hq with hin2 | heq2
            · cases hl : lookupA st dt.year with
              | none => rw [hl] at hin2; simp at hin2
              | some yd =>
                rw [hl] at hin2
                simp only [Option.getD_some] at hin2
                exact h (dt.year, yd) (lookupA_mem hl) q hin2
            · rw [heq2]
              constructor
              · simp
              · intro v hv
                rcases List.mem_append.mp hv with hv | hv
                · cases hl : lookupA st dt.year with
                  | none =>
                    rw [hl] at hv
                    simp [lookupA] at hv
                  | some yd =>
                    rw [hl] at hv
                    simp only [Option.getD_some] at hv
                    cases hl2 : lookupA yd (monthName dt.month) with
                    | none => rw [hl2] at hv; simp [lookupA] at hv
                    | some vs =>
                      rw [hl2] at hv
                      simp only [Option.getD_some] at hv
                      exact (h (dt.year, yd) (lookupA_mem hl) _ (lookupA_mem hl2)).2 v hv
                · simp at hv
                  rw [hv]
                  exact hval
        · exact h

theorem hrQueryBuild_pos (sd ed : Option HDate) (rows : List HrRow) :
    HrPos (hrQueryBuild sd ed rows) := by
  unfold hrQueryBuild
  exact foldl_preserve _ (fun s r hs => hrQueryStep_pos sd ed s r hs) rows []
    (by intro p hp; simp at hp)

end InvariantLemmas

section FormatLemmas

theorem getDA_keys_nodup {β : Type} {st : List (ℕ × List (String × β))}
    (h : NK2 st) (y : ℕ) : (((getDA st y []).map Prod.fst)).Nodup := by
  unfold getDA
  cases hl : lookupA st y with
  | none => simp
  | some yd =>
    simp only [Option.getD_some]
    exact h.2 (y, yd) (lookupA_mem hl)

theorem format_aggregated_good (agg : WAggState) (h : NK1 agg) :
    goodSeries "monthly" (format_aggregated_data agg) := by
  constructor
  · unfold format_aggregated_data
    rw [List.map_map]
    have he : List.map
        (FormattedYear.year ∘ fun y =>
          let monthsData := getDA agg y []
          let sortedMonths := monthOrder.filter (fun m => (lookupA monthsData m).isSome)
          let cell := fun m => getDA monthsData m wZero
          ({ year := y, labels := sortedMonths,
             datasets :=
               [("duration", .flat (sortedMonths.map (fun m => (cell m).duration))),
                ("energy", .flat (sortedMonths.map (fun m => (cell m).energy))),
                ("distance", .flat (sortedMonths.map (fun m => (cell m).distance))),
                ("count", .flat (sortedMonths.map (fun m => ((cell m).count : ℚ))))] }
             : FormattedYear))
        (sortNat (agg.map Prod.fst)) = sortNat (agg.map Prod.fst) := by
      apply List.map_id''
      intro y
      rfl
    rw [he]
    exact sortNat_pairwise_lt h
  · intro fy hfy
    unfold format_aggregated_data at hfy
    rcases List.mem_map.mp hfy with ⟨y, _hy, rfl⟩
    constructor
    · simp only [if_neg (by decide : ¬ ("monthly" : String) = "daily")]
      exact List.filter_sublist _
    · intro ds hds
      simp only [List.mem_cons, List.not_mem_nil, or_false] at hds
      rcases hds with rfl | rfl | rfl | rfl <;>
        simp [dsValOk]

theorem map_year_of_mk {g : ℕ → FormattedYear} (hg : ∀ y, (g y).year = y) :
    ∀ l : List ℕ, List.map FormattedYear.year (l.map g) = l := by
  intro l
  rw [List.map_map]
  exact List.map_id'' (fun y => hg y) l

theorem apiDataFormat_good (activity : String) (gb : Bool) (gran : String)
    (st : DataState) (h : NK2 st) :
    goodSeries gran (apiDataFormat activity gb gran st) := by
  constructor
  · have he : List.map FormattedYear.year (apiDataFormat activity gb gran st) =
        sortNat (st.map Prod.fst) := by
      unfold apiDataFormat
      apply map_year_of_mk
      intro y
      dsimp only
      split <;> rfl
    rw [he]
    exact sortNat_pairwise_lt h.1
  · intro fy hfy
    unfold apiDataFormat at hfy
    rcases List.mem_map.mp hfy with ⟨y, _hy, rfl⟩
    have hyd := getDA_keys_nodup h y
    by_cases hcond : (activity = "Total" || gb) = true
    · rw [if_pos hcond]
      constructor
      · by_cases hg : gran = "daily"
        · simp only [if_pos hg]
          exact sortStr_pairwise_strLt hyd
        · simp only [if_neg hg]
          exact List.filter_sublist _
      · intro ds hds
        simp only [List.mem_cons, List.not_mem_nil, or_false] at hds
        rcases hds with rfl | rfl | rfl | rfl | rfl | rfl <;>
          · intro b hb
            rcases List.mem_cons.mp hb with rfl | hb2
            · simp
            · rcases List.mem_map.mp hb2 with ⟨bn, _, rfl⟩
              simp
    · rw [if_neg hcond]
      constructor
      · by_cases hg : gran = "daily"
        · simp only [if_pos hg]
          exact sortStr_pairwise_strLt hyd
        · simp only [if_neg hg]
          exact List.filter_sublist _
      · intro ds hds
        simp only [List.mem_cons, List.not_mem_nil, or_false] at hds
        rcases hds with rfl | rfl | rfl | rfl | rfl | rfl <;>
          simp [dsValOk]

theorem round1_isTenth (q : ℚ) : isTenth (round1 q) := ⟨round (10 * q), rfl⟩

theorem zero_isTenth : isTenth 0 := ⟨0, by norm_num⟩

theorem ite_round1_isTenth (c : Prop) [Decidable c] (q : ℚ) :
    isTenth (if c then round1 q else 0) := by
  split
  · exact round1_isTenth q
  · exact zero_isTenth

theorem apiDataFormat_tenths (activity : String) (gb : Bool) (gran : String)
    (st : DataState) :
    ∀ fy ∈ apiDataFormat activity gb gran st, ∀ ds ∈ fy.datasets,
      dsValTenth ds.2 := by
  intro fy hfy ds hds
  unfold apiDataFormat at hfy
  rcases List.mem_map.mp hfy with ⟨y, _hy, rfl⟩
  by_cases hcond : (activity = "Total" || gb) = true
  · rw [if_pos hcond] at hds
    simp only [List.mem_cons, List.not_mem_nil, or_false] at hds
    rcases hds with rfl | rfl | rfl | rfl | rfl | rfl <;>
      · intro b hb q hq
        rcases List.mem_cons.mp hb with rfl | hb2
        · rcases List.mem_map.mp hq with ⟨lbl, _, rfl⟩
          first
            | exact round1_isTenth _
            | exact ite_round1_isTenth _ _
        · rcases List.mem_map.mp hb2 with ⟨bn, _, rfl⟩
          rcases List.mem_map.mp hq with ⟨lbl, _, rfl⟩
          first
            | exact round1_isTenth _
            | exact ite_round1_isTenth _ _
  · rw [if_neg hcond] at hds
    simp only [List.mem_cons, List.not_mem_nil, or_false] at hds
    rcases hds with rfl | rfl | rfl | rfl | rfl | rfl <;>
      · intro q hq
        rcases List.mem_map.mp hq with ⟨lbl, _, rfl⟩
        first
          | exact round1_isTenth _
          | exact ite_round1_isTenth _ _

end FormatLemmas

section StepLemmas

theorem getDA_updA_self {α β : Type} [DecidableEq α] (l : List (α × β)) (k : α)
    (d : β) (f : β → β) : getDA (updA l k d f) k d = f (getDA l k d) := by
  unfold getDA
  rw [lookupA_updA_self]
  rfl

theorem inRange_parts {sd ed : Option HDate} {dt : HDate}
    (hin : inRange sd ed dt = true) :
    beforeStart sd dt = false ∧ afterEnd ed dt = false := by
  unfold inRange at hin
  rw [Bool.and_eq_true, Bool.not_eq_true', Bool.not_eq_true'] at hin
  exact hin

theorem hrBatchStep_exact (st : HrBatchState) (r : HrRow) (dt : HDate) (hr : ℚ)
    (hdt : parseDate r.startDate = some dt) (hv : pyFloat? r.value = some hr) :
    getDA (getDA (hrBatchStep st r) dt.year []) (monthName dt.month) hrZero =
      (let a := getDA (getDA st dt.year []) (monthName dt.month) hrZero
       { sum := a.sum + hr, count := a.count + 1,
         min? := some (match a.min? with | none => hr | some m => min m hr),
         max := max a.max hr }) := by
  unfold hrBatchStep
  rw [hdt, hv, getDA_updA_self, getDA_updA_self]

theorem hrQueryStep_nonpos (sd ed : Option HDate) (st : HrQueryState) (r : HrRow)
    (h : safeFloatStr r.value 0 ≤ 0) : hrQueryStep sd ed st r = st := by
  unfold hrQueryStep
  dsimp only
  split
  · rfl
  · split
    · rfl
    · split
      · rfl
      · rw [if_neg (not_lt.mpr h)]

theorem hrQueryFormat_datasets (st : HrQueryState) :
    ∀ fy ∈ hrQueryFormat st,
      fy.datasets.map Prod.fst = ["avg_heart_rate", "max_heart_rate"] := by
  intro fy hfy
  rcases List.mem_map.mp hfy with ⟨y, _, rfl⟩
  rfl

theorem dataRowStep_exact (gb : Bool) (gran : String) (sd ed : Option HDate)
    (act : String) (st : DataState) (r : Row) (dt : HDate)
    (hdt : parseDate ((rowGet r "startDate").getD "") = some dt)
    (hin : inRange sd ed dt = true) :
    getDA (getDA (getDA (dataRowStep gb gran sd ed act st r) dt.year [])
        (if gran = "daily" then dateToString dt else monthName dt.month) [])
      (if gb then categorize_activity act else act) wZero =
    (let old := getDA (getDA (getDA st dt.year [])
        (if gran = "daily" then dateToString dt else monthName dt.month) [])
      (if gb then categorize_activity act else act) wZero
     { count := old.count + 1,
       duration := old.duration + safeFloat (rowGet r "duration") 0,
       energy := old.energy + safeFloat (pickTruthy
         (rowGet r "stat_ActiveEnergyBurned_sum") (rowGet r "totalEnergyBurned")) 0,
       distance := old.distance + safeFloat (pickTruthy
         (rowGet r "stat_DistanceWalkingRunning_sum") (rowGet r "totalDistance")) 0 }) := by
  obtain ⟨h1, h2⟩ := inRange_parts hin
  unfold dataRowStep
  simp only [hdt, h1, h2, Bool.false_eq_true, if_false]
  rw [getDA_updA_self, getDA_updA_self, getDA_updA_self]

theorem pdWorkoutStep_skip (st : WAggState) (r : Row)
    (h : parseDate ((rowGet r "startDate").getD "") = none) :
    pdWorkoutStep st r = st := by
  unfold pdWorkoutStep
  dsimp only
  by_cases hsd : (rowGet r "startDate").getD "" = ""
  · rw [if_pos hsd]
  · rw [if_neg hsd, h]

theorem parseDate_ne_empty {dt : HDate} {s : String} (h : parseDate s = some dt) :
    ¬ s = "" := by
  intro he
  rw [he] at h
  exact Option.noConfusion h

theorem pdWorkoutStep_badDuration (st : WAggState) (r : Row) (dt : HDate)
    (hdt : parseDate ((rowGet r "startDate").getD "") = some dt)
    (hdur : pyOrZero (rowGet r "duration") = none) :
    pdWorkoutStep st r =
      wBump st dt.year (monthName dt.month) (fun s => { s with count := s.count + 1 }) := by
  unfold pdWorkoutStep
  dsimp only
  rw [if_neg (parseDate_ne_empty hdt), hdt, hdur]

theorem afcStep_skip (st : WAggState) (r : WRow)
    (h : parseDate r.startDate = none) : afcStep st r = st := by
  unfold afcStep
  rw [h]

theorem afcStep_badDuration (st : WAggState) (r : WRow) (dt : HDate)
    (hdt : parseDate r.startDate = some dt)
    (hdur : pyFloat? r.duration = none) :
    afcStep st r =
      wBump st dt.year (monthName dt.month) (fun s => { s with count := s.count + 1 }) := by
  unfold afcStep
  rw [hdt]
  dsimp only
  rw [hdur]

theorem pdWorkoutAgg_append (pre post : List Row) (r : Row) :
    pdWorkoutAgg (pre ++ r :: post) =
      post.foldl pdWorkoutStep (pdWorkoutStep (pdWorkoutAgg pre) r) := by
  unfold pdWorkoutAgg
  rw [List.foldl_append, List.foldl_cons]

theorem pwStep_skip (fs : List (String × List CsvRow)) (e : WorkoutElem)
    (h : getAttr e "workoutActivityType" = none) : pwStep fs e = fs := by
  unfold pwStep
  rw [h]

theorem pwFiles_skip (pre post : List WorkoutElem) (e : WorkoutElem)
    (h : getAttr e "workoutActivityType" = none) :
    pwFiles (pre ++ e :: post) = pwFiles (pre ++ post) := by
  unfold pwFiles
  rw [List.foldl_append, List.foldl_append, List.foldl_cons, pwStep_skip _ _ h]

theorem isRun_sortedUniqueDays {days : List ℤ} {a : ℤ} {k : ℕ} :
    isRun (sortedUniqueDays days) a k ↔ isRun days a k := by
  unfold isRun
  constructor
  · intro h i hi
    exact mem_sortedUniqueDays.mp (h i hi)
  · intro h i hi
    exact mem_sortedUniqueDays.mpr (h i hi)

end StepLemmas

section Claims

/-- Claim C1 (counterexample): the claim says a whole-document parse
failure is re-raised to the caller of the extraction operation at both
cited sites, but the extraction pass of process_data swallows it: with one
valid Workout element delivered before a document-level failure, the pass
returns ok with the extracted record, while parse_workouts_to_csv raises. -/
theorem claim_C1_counterexample :
    processPass1
        [⟨[("workoutActivityType", "HKWorkoutActivityTypeRunning"),
           ("startDate", "2024-01-15 07:00:00 +0000")], []⟩] true =
      Except.ok
        [("Running",
          [[("workoutActivityType", "HKWorkoutActivityTypeRunning"),
            ("startDate", "2024-01-15 07:00:00 +0000")]])] ∧
    parse_workouts_to_csv
        [⟨[("workoutActivityType", "HKWorkoutActivityTypeRunning"),
           ("startDate", "2024-01-15 07:00:00 +0000")], []⟩] true =
      Except.error
        [("Running", [⟨"2024-01-15 07:00:00 +0000", "0", "0", "0"⟩])] :=
  ⟨rfl, rfl⟩

/-- Claim C1 (amended): during extraction of workout records a record
without the activity-type discriminator is skipped without aborting the
stream; in parse_workouts_to_csv a whole-document parse failure is
re-raised to the caller (with the files written so far persisting on
disk), but in the extraction pass of process_data the failure is caught
and logged and the pass returns the partial results normally, never
propagating the error. -/
theorem claim_C1 :
    (∀ (pre post : List WorkoutElem) (e : WorkoutElem) (d : Bool),
      getAttr e "workoutActivityType" = none →
      parse_workouts_to_csv (pre ++ e :: post) d =
        parse_workouts_to_csv (pre ++ post) d) ∧
    (∀ elems : List WorkoutElem,
      parse_workouts_to_csv elems true = Except.error (pwFiles elems) ∧
      parse_workouts_to_csv elems false = Except.ok (pwFiles elems)) ∧
    (∀ (elems : List WorkoutElem) (d : Bool),
      processPass1 elems d = Except.ok (p1Files elems)) := by
  refine ⟨?_, ?_, ?_⟩
  · intro pre post e d h
    unfold parse_workouts_to_csv
    rw [pwFiles_skip pre post e h]
  · intro elems
    exact ⟨rfl, rfl⟩
  · intro elems d
    rfl

/-- Claim C1 (witness). -/
theorem claim_C1_witness :
    parse_workouts_to_csv [⟨[("startDate", "2024-01-01 00:00:00")], []⟩] true =
      parse_workouts_to_csv [] true := by
  have h := claim_C1.1 [] [] ⟨[("startDate", "2024-01-01 00:00:00")], []⟩ true
    (by decide)
  simpa using h

/-- Claim C5 (counterexample): a row with a parseable date but a
non-numeric duration is claimed to contribute nothing to any bucket
accumulator, yet the bucket's count is already incremented before the
duration parse fails. -/
theorem claim_C5_counterexample :
    pyOrZero (rowGet [("startDate", "2024-01-15 07:00:00 +0000"),
      ("duration", "abc")] "duration") = none ∧
    (getDA (getDA (pdWorkoutAgg
        [[("startDate", "2024-01-15 07:00:00 +0000"), ("duration", "abc")]])
      2024 []) "January" wZero).count = 1 := by
  constructor
  · decide
  · decide

/-- Claim C5 (amended): in workout aggregation a row with an unparseable
date is skipped as a whole; a row with a non-numeric metric value keeps
every accumulator update made before the failing parse (the count always,
plus any metrics parsed earlier) and drops the rest; and neither failure
aborts the scan, which continues over the remaining rows. -/
theorem claim_C5 :
    (∀ (st : WAggState) (r : Row),
      parseDate ((rowGet r "startDate").getD "") = none → pdWorkoutStep st r = st) ∧
    (∀ (st : WAggState) (r : Row) (dt : HDate),
      parseDate ((rowGet r "startDate").getD "") = some dt →
      pyOrZero (rowGet r "duration") = none →
      pdWorkoutStep st r =
        wBump st dt.year (monthName dt.month) (fun s => { s with count := s.count + 1 })) ∧
    (∀ (st : WAggState) (r : WRow),
      parseDate r.startDate = none → afcStep st r = st) ∧
    (∀ (st : WAggState) (r : WRow) (dt : HDate),
      parseDate r.startDate = some dt → pyFloat? r.duration = none →
      afcStep st r =
        wBump st dt.year (monthName dt.month) (fun s => { s with count := s.count + 1 })) ∧
    (∀ (pre post : List Row) (r : Row),
      pdWorkoutAgg (pre ++ r :: post) =
        post.foldl pdWorkoutStep (pdWorkoutStep (pdWorkoutAgg pre) r)) := by
  refine ⟨?_, ?_, ?_, ?_, ?_⟩
  · exact pdWorkoutStep_skip
  · exact pdWorkoutStep_badDuration
  · exact afcStep_skip
  · exact afcStep_badDuration
  · exact pdWorkoutAgg_append

/-- Claim C5 (witness). -/
theorem claim_C5_witness :
    pdWorkoutStep [] [("startDate", "bad date")] = [] := by
  exact claim_C5.1 [] [("startDate", "bad date")] (by decide)

/-- Claim C6: the query operations return explicitly empty results for a
missing category or file — the statistics endpoint returns the zero-valued
summary and the metric aggregation helper returns the empty list when the
backing store is absent, and the detail listing returns an empty page when
the requested category has no rows — but the workout detail listing lacks
the existence guard every other endpoint has: when the processed directory
itself is absent, os.listdir raises FileNotFoundError instead of returning
an empty page, contradicting the claim. -/
theorem claim_C6 :
    getWorkoutDetails none 1 50 "" "" "" = Except.error () ∧
    getStatistics none "" "" = statsInit ∧
    aggregate_metric_by_date none "startDate" "value" "" "" "total_steps" "monthly" = [] ∧
    getWorkoutDetails (some [("Running", [])]) 1 50 "Cycling" "" "" =
      Except.ok { data := [], total := 0, page := 1, per_page := 50, total_pages := 0 } := by
  refine ⟨rfl, rfl, rfl, rfl⟩

/-- Claim C2 (counterexample): the claim says both heart-rate aggregation
paths track per-bucket min and max and discard non-positive readings.  The
batch aggregation includes a negative reading in every accumulator (here a
single -5 reading yields a bucket with count 1 and sum -5), and the
query-time aggregation emits only average and maximum datasets, no
minimum. -/
theorem claim_C2_counterexample :
    pyFloat? "-5" = some (-5) ∧
    (getDA (getDA (aggregate_heart_rate_data
        [⟨"2024-01-15 08:00:00 +0000", "-5"⟩]) 2024 []) "January" hrZero).count = 1 ∧
    (getDA (getDA (aggregate_heart_rate_data
        [⟨"2024-01-15 08:00:00 +0000", "-5"⟩]) 2024 []) "January" hrZero).sum = -5 ∧
    (aggregate_heart_rate_by_date [⟨"2024-01-15 08:00:00 +0000", "72"⟩] "" "").map
        (fun fy => fy.datasets.map Prod.fst) = [["avg_heart_rate", "max_heart_rate"]] := by
  have hv : pyFloat? "-5" = some (-5) := by decide
  have hd : parseDate "2024-01-15 08:00:00 +0000" = some ⟨2024, 1, 15⟩ := by decide
  have hstep : aggregate_heart_rate_data [⟨"2024-01-15 08:00:00 +0000", "-5"⟩] =
      hrBatchStep [] ⟨"2024-01-15 08:00:00 +0000", "-5"⟩ := rfl
  have hex := hrBatchStep_exact [] ⟨"2024-01-15 08:00:00 +0000", "-5"⟩
    ⟨2024, 1, 15⟩ (-5) hd hv
  refine ⟨hv, ?_, ?_, ?_⟩
  · decide
  · rw [hstep]
    rw [show (2024 : ℕ) = (⟨2024, 1, 15⟩ : HDate).year from rfl,
      show "January" = monthName (⟨2024, 1, 15⟩ : HDate).month from rfl, hex]
    norm_num [getDA, lookupA, hrZero]
  · rfl

/-- Claim C2 (amended): both aggregation paths skip rows whose value fails
to parse, but they differ from the claim as follows: the batch aggregation
updates sum, count, min and max of the bucket with every float-parsable
reading regardless of sign (non-positive readings included), while the
date-filtered query-time aggregation discards non-positive readings and
its output carries only average and maximum datasets per bucket, never a
minimum. -/
theorem claim_C2 :
    (∀ (st : HrBatchState) (r : HrRow) (dt : HDate) (hr : ℚ),
      parseDate r.startDate = some dt → pyFloat? r.value = some hr →
      getDA (getDA (hrBatchStep st r) dt.year []) (monthName dt.month) hrZero =
        (let a := getDA (getDA st dt.year []) (monthName dt.month) hrZero
         { sum := a.sum + hr, count := a.count + 1,
           min? := some (match a.min? with | none => hr | some m => min m hr),
           max := max a.max hr })) ∧
    (∀ (sd ed : Option HDate) (st : HrQueryState) (r : HrRow),
      safeFloatStr r.value 0 ≤ 0 → hrQueryStep sd ed st r = st) ∧
    (∀ st : HrQueryState, ∀ fy ∈ hrQueryFormat st,
      fy.datasets.map Prod.fst = ["avg_heart_rate", "max_heart_rate"]) :=
  ⟨hrBatchStep_exact, hrQueryStep_nonpos, hrQueryFormat_datasets⟩

/-- Claim C2 (witness). -/
theorem claim_C2_witness :
    hrQueryStep none none [] ⟨"2024-01-15 08:00:00 +0000", "0"⟩ = [] :=
  claim_C2.2.1 none none [] ⟨"2024-01-15 08:00:00 +0000", "0"⟩ (by decide)

/-- Claim C3 (counterexample): the claim says every sleep-aggregation code
path classifies rows by tolerant substring matching.  The aggregate_sleep_data
helper of src/parser.py compares the raw value against the numeric codes
exactly: a row whose value is the string Asleep (which substring matching
must classify as asleep, as the process_data path does) contributes to no
bucket there at all. -/
theorem claim_C3_counterexample :
    containsSub "Asleep" "Asleep" = true ∧
    aggregate_sleep_data
      [⟨"2024-03-05 23:00:00 +0000", "2024-03-06 07:00:00 +0000", "Asleep", "30"⟩] = [] ∧
    (getDA (getDA (processSleepAgg
        [⟨"2024-03-05 23:00:00 +0000", "2024-03-06 07:00:00 +0000", "Asleep", "30"⟩])
      2024 []) "March" sleepZero).total_sleep_minutes = 30 := by
  refine ⟨by decide, rfl, ?_⟩
  have hd : parseDate "2024-03-05 23:00:00 +0000" = some ⟨2024, 3, 5⟩ := by decide
  have hf : pyFloat? "30" = some 30 := by decide
  simp [processSleepAgg, sleepSubStep, hd, hf, getDA, lookupA, updA, sleepZero,
    monthName, monthOrder, List.getD, containsSub, containsL, startsL]

/-- Claim C3 (amended): the sleep aggregation of process_data (the path
that builds the persisted aggregates) classifies each row by tolerant
substring matching against the raw category value, testing Asleep, then
InBed, then Awake; the aggregate_sleep_data helper of src/parser.py
instead classifies by exact equality with the numeric category codes 1, 0
and 2, and a row matching no branch touches no bucket in either path. -/
theorem claim_C3 : ∀ v : String,
    ((getDA (getDA (processSleepAgg
          [⟨"2024-03-05 23:00:00 +0000", "2024-03-06 07:00:00 +0000", v, "30"⟩])
        2024 []) "March" sleepZero).total_sleep_minutes
      = (if containsSub "Asleep" v then (30 : ℚ) else 0) ∧
     (getDA (getDA (processSleepAgg
          [⟨"2024-03-05 23:00:00 +0000", "2024-03-06 07:00:00 +0000", v, "30"⟩])
        2024 []) "March" sleepZero).in_bed_minutes
      = (if !(containsSub "Asleep" v) && containsSub "InBed" v then (30 : ℚ) else 0) ∧
     (getDA (getDA (processSleepAgg
          [⟨"2024-03-05 23:00:00 +0000", "2024-03-06 07:00:00 +0000", v, "30"⟩])
        2024 []) "March" sleepZero).awake_minutes
      = (if !(containsSub "Asleep" v) && !(containsSub "InBed" v) && containsSub "Awake" v
         then (30 : ℚ) else 0)) ∧
    ((getDA (getDA (aggregate_sleep_data
          [⟨"2024-03-05 23:00:00 +0000", "2024-03-06 07:00:00 +0000", v, "30"⟩])
        2024 []) "March" sleepZero).total_sleep_minutes
      = (if v = "1" then (30 : ℚ) else 0) ∧
     (getDA (getDA (aggregate_sleep_data
          [⟨"2024-03-05 23:00:00 +0000", "2024-03-06 07:00:00 +0000", v, "30"⟩])
        2024 []) "March" sleepZero).in_bed_minutes
      = (if v = "0" then (30 : ℚ) else 0) ∧
     (getDA (getDA (aggregate_sleep_data
          [⟨"2024-03-05 23:00:00 +0000", "2024-03-06 07:00:00 +0000", v, "30"⟩])
        2024 []) "March" sleepZero).awake_minutes
      = (if v = "2" then (30 : ℚ) else 0)) := by
  intro v
  have hd : parseDate "2024-03-05 23:00:00 +0000" = some ⟨2024, 3, 5⟩ := by decide
  have hf : pyFloat? "30" = some 30 := by decide
  constructor
  · by_cases h1 : containsSub "Asleep" v = true <;>
      by_cases h2 : containsSub "InBed" v = true <;>
        by_cases h3 : containsSub "Awake" v = true <;>
          refine ⟨?_, ?_, ?_⟩ <;>
            simp [processSleepAgg, sleepSubStep, hd, hf, h1, h2, h3, getDA,
              lookupA, updA, sleepZero, monthName, monthOrder, List.getD]
  · by_cases hv1 : v = "1" <;> by_cases hv0 : v = "0" <;> by_cases hv2 : v = "2" <;>
      refine ⟨?_, ?_, ?_⟩ <;>
        simp_all [aggregate_sleep_data, sleepCodeStep, hd, hf, getDA, lookupA,
          updA, sleepZero, monthName, monthOrder, List.getD]

/-- Claim C4 (counterexample): the claim says every numeric value of the
batch-persisted aggregated.json series is rounded to one decimal place.
Two rows with durations 10.1 and 0.15 in the same bucket make the batch
formatter emit the raw sum 10.25, which is not a multiple of one tenth. -/
theorem claim_C4_counterexample :
    (getDA (getDA (pdWorkoutAgg
        [[("startDate", "2024-01-15 07:00:00 +0000"), ("duration", "10.1")],
         [("startDate", "2024-01-20 07:00:00 +0000"), ("duration", "0.15")]])
      2024 []) "January" wZero).duration = 41 / 4 ∧
    format_aggregated_data (pdWorkoutAgg
        [[("startDate", "2024-01-15 07:00:00 +0000"), ("duration", "10.1")],
         [("startDate", "2024-01-20 07:00:00 +0000"), ("duration", "0.15")]]) =
      [{ year := 2024, labels := ["January"],
         datasets := [("duration", .flat [41 / 4]), ("energy", .flat [0]),
                      ("distance", .flat [0]), ("count", .flat [2])] }] ∧
    ¬ isTenth (41 / 4) := by
  have hd1 : parseDate "2024-01-15 07:00:00 +0000" = some ⟨2024, 1, 15⟩ := by decide
  have hd2 : parseDate "2024-01-20 07:00:00 +0000" = some ⟨2024, 1, 20⟩ := by decide
  have hq1 : pyOrZero (some "10.1") = some (101 / 10) := by
    simp [pyOrZero, pyFloat?, signedDecimal?, parseDecimal?, trimChars, wsChar,
      digitsVal?, digitsAux, charDigit?]
    norm_num
  have hq2 : pyOrZero (some "0.15") = some (3 / 20) := by
    simp [pyOrZero, pyFloat?, signedDecimal?, parseDecimal?, trimChars, wsChar,
      digitsVal?, digitsAux, charDigit?]
    norm_num
  have hagg : (getDA (getDA (pdWorkoutAgg
      [[("startDate", "2024-01-15 07:00:00 +0000"), ("duration", "10.1")],
       [("startDate", "2024-01-20 07:00:00 +0000"), ("duration", "0.15")]])
      2024 []) "January" wZero) =
      { count := 2, duration := 41 / 4, energy := 0, distance := 0 } := by
    simp [pdWorkoutAgg, pdWorkoutStep, hd1, hd2, hq1, hq2, rowGet, lookupA,
      pyOrChain, pyOrZero, wBump, getDA, updA, wZero, monthName, monthOrder,
      List.getD]
    norm_num
  refine ⟨by rw [hagg], ?_, ?_⟩
  · rw [show format_aggregated_data (pdWorkoutAgg
        [[("startDate", "2024-01-15 07:00:00 +0000"), ("duration", "10.1")],
         [("startDate", "2024-01-20 07:00:00 +0000"), ("duration", "0.15")]]) =
      format_aggregated_data (pdWorkoutAgg
        [[("startDate", "2024-01-15 07:00:00 +0000"), ("duration", "10.1")],
         [("startDate", "2024-01-20 07:00:00 +0000"), ("duration", "0.15")]]) from rfl]
    simp [format_aggregated_data, pdWorkoutAgg, pdWorkoutStep, hd1, hd2, hq1, hq2,
      rowGet, lookupA, pyOrChain, pyOrZero, wBump, getDA, updA, wZero, monthName,
      monthOrder, List.getD, sortNat, List.insertionSort, List.orderedInsert]
    norm_num
  · rintro ⟨z, hz⟩
    have : (41 : ℚ) * 10 = z * 4 := by
      field_simp at hz
      linarith
    have hz4 : (4 : ℤ) ∣ 410 := by
      have h4 : ((410 : ℤ) : ℚ) = ((4 * z : ℤ) : ℚ) := by push_cast; linarith
      exact ⟨z, by exact_mod_cast h4⟩
    norm_num at hz4

/-- Claim C4 (amended): every numeric value in the series returned by the
workout series query (/api/data) is rounded to one decimal place, the
rounding being applied at formatting time to accumulators that are updated
with exact unrounded increments; the batch-persisted aggregated.json
series is written without any rounding. -/
theorem claim_C4 :
    (∀ (dirs : List (String × List Row)) (activity sdStr edStr gran : String)
        (gb : Bool),
      ∀ fy ∈ apiData dirs activity sdStr edStr gran gb, ∀ ds ∈ fy.datasets,
        dsValTenth ds.2) ∧
    (∀ (gb : Bool) (gran : String) (sd ed : Option HDate) (act : String)
        (st : DataState) (r : Row) (dt : HDate),
      parseDate ((rowGet r "startDate").getD "") = some dt →
      inRange sd ed dt = true →
      getDA (getDA (getDA (dataRowStep gb gran sd ed act st r) dt.year [])
          (if gran = "daily" then dateToString dt else monthName dt.month) [])
        (if gb then categorize_activity act else act) wZero =
      (let old := getDA (getDA (getDA st dt.year [])
          (if gran = "daily" then dateToString dt else monthName dt.month) [])
        (if gb then categorize_activity act else act) wZero
       { count := old.count + 1,
         duration := old.duration + safeFloat (rowGet r "duration") 0,
         energy := old.energy + safeFloat (pickTruthy
           (rowGet r "stat_ActiveEnergyBurned_sum") (rowGet r "totalEnergyBurned")) 0,
         distance := old.distance + safeFloat (pickTruthy
           (rowGet r "stat_DistanceWalkingRunning_sum") (rowGet r "totalDistance")) 0 })) := by
  constructor
  · intro dirs activity sdStr edStr gran gb fy hfy
    unfold apiData at hfy
    by_cases ha : activity = ""
    · rw [if_pos ha] at hfy
      exact absurd hfy (List.not_mem_nil _)
    · rw [if_neg ha] at hfy
      exact apiDataFormat_tenths activity gb gran _ fy hfy
  · exact dataRowStep_exact

/-- Claim C4 (witness). -/
theorem claim_C4_witness :
    getDA (getDA (getDA (dataRowStep false "monthly" none none "Running" []
        [("startDate", "2024-01-15 07:00:00 +0000"), ("duration", "10.1")])
      2024 []) "January" []) "Running" wZero =
    { count := 1, duration := (101 : ℚ) / 10, energy := 0, distance := 0 } := by
  have h := claim_C4.2 false "monthly" none none "Running" []
    [("startDate", "2024-01-15 07:00:00 +0000"), ("duration", "10.1")]
    ⟨2024, 1, 15⟩ (by decide) (by decide)
  simp only [if_neg (by decide : ¬ ("monthly" : String) = "daily"),
    if_neg (by decide : ¬ false = true)] at h
  rw [show "January" = monthName (⟨2024, 1, 15⟩ : HDate).month from rfl,
    show (2024 : ℕ) = (⟨2024, 1, 15⟩ : HDate).year from rfl, h]
  have hs : safeFloatStr "10.1" 0 = 101 / 10 := by
    simp [safeFloatStr, firstTok, wsChar,
      signedDecimal?, parseDecimal?, digitsVal?, digitsAux, charDigit?]
    norm_num
  have he : pickTruthy (rowGet [("startDate", "2024-01-15 07:00:00 +0000"),
      ("duration", "10.1")] "stat_ActiveEnergyBurned_sum")
      (rowGet [("startDate", "2024-01-15 07:00:00 +0000"),
        ("duration", "10.1")] "totalEnergyBurned") = none := by decide
  have hdi : pickTruthy (rowGet [("startDate", "2024-01-15 07:00:00 +0000"),
      ("duration", "10.1")] "stat_DistanceWalkingRunning_sum")
      (rowGet [("startDate", "2024-01-15 07:00:00 +0000"),
        ("duration", "10.1")] "totalDistance") = none := by decide
  simp [getDA, lookupA, wZero, hs, he, hdi, safeFloat, rowGet, pickTruthy]

/-- Claim C7: for every start/end filter pair the streak fields of the
personal-records result equal the values computed with no date filter at
all (the source appends every parseable workout date to the global list
before filtering), while the two personal-best fields equal the values
computed from the date-restricted row set alone, i.e. only they honor the
filter. -/
theorem claim_C7 : ∀ (dirs : List (String × List Row)) (sdStr edStr : String)
    (today : ℤ),
    (getPersonalRecords (some dirs) sdStr edStr today).current_streak =
      (getPersonalRecords (some dirs) "" "" today).current_streak ∧
    (getPersonalRecords (some dirs) sdStr edStr today).longest_streak =
      (getPersonalRecords (some dirs) "" "" today).longest_streak ∧
    (getPersonalRecords (some dirs) sdStr edStr today).longest_workout =
      (getPersonalRecords
        (some (restrictDirs dirs (parseDate sdStr) (parseDate edStr)))
        "" "" today).longest_workout ∧
    (getPersonalRecords (some dirs) sdStr edStr today).most_active_month =
      (getPersonalRecords
        (some (restrictDirs dirs (parseDate sdStr) (parseDate edStr)))
        "" "" today).most_active_month := by
  intro dirs sdStr edStr today
  refine ⟨rfl, rfl, ?_, ?_⟩
  · exact (longestWorkoutOf_restrict dirs (parseDate sdStr) (parseDate edStr)).symm
  · exact congrArg mostActiveOf
      (monthlyCountsOf_restrict dirs (parseDate sdStr) (parseDate edStr)).symm

/-- Claim C8: the longest streak reported by the personal-records endpoint
is exactly the length of the longest run of consecutive calendar days (by
day number) each containing at least one workout; the current streak, when
the most recent workout day is at most one day before today, is exactly
the length of the trailing consecutive-day run ending at that most recent
day, and it is zero when the gap to today is two or more days; and for the
concrete history 2024-01-01, -02, -03, -05 the longest streak is 3. -/
theorem claim_C8 :
    (∀ (dirs : List (String × List Row)) (sdStr edStr : String) (today : ℤ),
      (∃ a, isRun (allWorkoutDays dirs) a
          (getPersonalRecords (some dirs) sdStr edStr today).longest_streak) ∧
      (∀ (k : ℕ) (a : ℤ), isRun (allWorkoutDays dirs) a k →
        k ≤ (getPersonalRecords (some dirs) sdStr edStr today).longest_streak) ∧
      (∀ x : ℤ, (sortedUniqueDays (allWorkoutDays dirs)).getLast? = some x →
        (∀ d ∈ allWorkoutDays dirs, d ≤ x) ∧
        (today - x ≤ 1 →
          (∀ i : ℕ,
            i < (getPersonalRecords (some dirs) sdStr edStr today).current_streak →
            x - (i : ℤ) ∈ allWorkoutDays dirs) ∧
          (∀ k : ℕ, (∀ i : ℕ, i < k → x - (i : ℤ) ∈ allWorkoutDays dirs) →
            k ≤ (getPersonalRecords (some dirs) sdStr edStr today).current_streak)) ∧
        (2 ≤ today - x →
          (getPersonalRecords (some dirs) sdStr edStr today).current_streak = 0))) ∧
    (getPersonalRecords (some exampleDirs) "" ""
        (dayNumber ⟨2024, 1, 5⟩ : ℤ)).longest_streak = 3 := by
  constructor
  · intro dirs sdStr edStr today
    have hls : (getPersonalRecords (some dirs) sdStr edStr today).longest_streak =
        longestStreak (sortedUniqueDays (allWorkoutDays dirs)) := rfl
    have hcs : (getPersonalRecords (some dirs) sdStr edStr today).current_streak =
        currentStreak (sortedUniqueDays (allWorkoutDays dirs)) today := rfl
    refine ⟨?_, ?_, ?_⟩
    · obtain ⟨a, ha⟩ := longestStreak_run (sortedUniqueDays (allWorkoutDays dirs))
      rw [hls]
      exact ⟨a, isRun_sortedUniqueDays.mp ha⟩
    · intro k a hk
      rw [hls]
      exact longestStreak_ub (sortedUniqueDays_chain _) k a
        (isRun_sortedUniqueDays.mpr hk)
    · intro x hx
      have hrev : (sortedUniqueDays (allWorkoutDays dirs)).reverse.head? = some x := by
        rw [List.head?_reverse]
        exact hx
      obtain ⟨xs, hxs⟩ : ∃ xs,
          (sortedUniqueDays (allWorkoutDays dirs)).reverse = x :: xs := by
        cases hr : (sortedUniqueDays (allWorkoutDays dirs)).reverse with
        | nil => rw [hr] at hrev; simp at hrev
        | cons z zs =>
          rw [hr] at hrev
          simp at hrev
          exact ⟨zs, by rw [hrev]⟩
      have hpair : List.Pairwise (· > ·) (x :: xs) := by
        rw [← hxs]
        exact List.pairwise_reverse.mpr (sortedUniqueDays_chain _)
      have hmemx : x ∈ allWorkoutDays dirs := by
        have hm : x ∈ (sortedUniqueDays (allWorkoutDays dirs)).reverse := by
          rw [hxs]
          exact List.mem_cons_self _ _
        exact mem_sortedUniqueDays.mp (List.mem_reverse.mp hm)
      have hmemxs : ∀ y ∈ xs, y ∈ allWorkoutDays dirs := by
        intro y hy
        have hm : y ∈ (sortedUniqueDays (allWorkoutDays dirs)).reverse := by
          rw [hxs]
          exact List.mem_cons_of_mem _ hy
        exact mem_sortedUniqueDays.mp (List.mem_reverse.mp hm)
      have hub : ∀ d ∈ allWorkoutDays dirs, d ≤ x := by
        intro d hd
        have hd2 : d ∈ x :: xs := by
          rw [← hxs]
          exact List.mem_reverse.mpr (mem_sortedUniqueDays.mpr hd)
        rcases List.mem_cons.mp hd2 with h | h
        · omega
        · have := (List.pairwise_cons.mp hpair).1 d h
          omega
      have hcur : currentStreak (sortedUniqueDays (allWorkoutDays dirs)) today =
          if today - x ≤ 1 then goDesc x xs 1 else 0 := by
        unfold currentStreak
        rw [hxs]
      refine ⟨hub, ?_, ?_⟩
      · intro hgap
        have hcur2 : (getPersonalRecords (some dirs) sdStr edStr today).current_streak =
            goDesc x xs 1 := by
          rw [hcs, hcur, if_pos hgap]
        constructor
        · intro i hi
          rw [hcur2] at hi
          refine goDesc_run (allWorkoutDays dirs) xs x 1 x ?_ ?_ hmemxs i hi
          · intro j hj
            have hj0 : j = 0 := by omega
            subst hj0
            simpa using hmemx
          · push_cast
            ring
        · intro k hk
          rw [hcur2]
          refine goDesc_ub (allWorkoutDays dirs) xs x 1 x hpair ?_ ?_ k hk
          · intro y hy
            have hy2 : y ∈ x :: xs := by
              rw [← hxs]
              exact List.mem_reverse.mpr (mem_sortedUniqueDays.mpr hy)
            rcases List.mem_cons.mp hy2 with h | h
            · left; omega
            · right; exact h
          · push_cast
            ring
      · intro hgap
        rw [hcs, hcur, if_neg (by omega)]
  · decide

/-- Claim C8 (witness). -/
theorem claim_C8_witness :
    2 ≤ (getPersonalRecords (some exampleDirs) "" ""
        (dayNumber ⟨2024, 1, 5⟩ : ℤ)).longest_streak :=
  (claim_C8.1 exampleDirs "" "" (dayNumber ⟨2024, 1, 5⟩ : ℤ)).2.1 2
    (dayNumber ⟨2024, 1, 1⟩ : ℤ) (by
      intro i hi
      have h01 : i = 0 ∨ i = 1 := by omega
      rcases h01 with h | h <;> subst h <;> decide)

/-- Claim C9: every Formatted Series produced by the embedded formatters —
the batch aggregated.json formatter applied to either workout aggregation,
and the data endpoint response — has strictly ascending years, monthly
labels forming a subsequence of the canonical month order, daily labels
strictly lexicographically ascending, and every dataset value array
aligned with the labels array. -/
theorem claim_C9 :
    (∀ rows : List Row,
      goodSeries "monthly" (format_aggregated_data (pdWorkoutAgg rows))) ∧
    (∀ rows : List WRow,
      goodSeries "monthly" (format_aggregated_data (aggregate_from_csv rows))) ∧
    (∀ (dirs : List (String × List Row)) (activity sdStr edStr gran : String)
        (gb : Bool),
      goodSeries gran (apiData dirs activity sdStr edStr gran gb)) := by
  refine ⟨?_, ?_, ?_⟩
  · intro rows
    exact format_aggregated_good _ (pdWorkoutAgg_NK1 rows)
  · intro rows
    exact format_aggregated_good _ (aggregate_from_csv_NK1 rows)
  · intro dirs activity sdStr edStr gran gb
    unfold apiData
    split
    · exact ⟨List.Pairwise.nil, by simp⟩
    · exact apiDataFormat_good activity gb gran _
        (dataBuild_NK2 dirs activity gb gran (parseDate sdStr) (parseDate edStr))

/-- Claim C9 (witness). -/
theorem claim_C9_witness :
    goodSeries "monthly" (format_aggregated_data (pdWorkoutAgg [])) :=
  claim_C9.1 []

/-- Claim C10: in the date-filtered heart-rate aggregation every bucket
present in the built state has a nonempty value list of strictly positive
readings, so the per-bucket average (sum over length) and maximum are
well-defined and the division by the list length is never a division by
zero. -/
theorem claim_C10 : ∀ (rows : List HrRow) (sdStr edStr : String),
    ∀ p ∈ hrQueryBuild (parseDate sdStr) (parseDate edStr) rows, ∀ q ∈ p.2,
      q.2 ≠ [] ∧ 0 < q.2.length ∧ ∀ v ∈ q.2, 0 < v := by
  intro rows sdStr edStr p hp q hq
  have h := hrQueryBuild_pos (parseDate sdStr) (parseDate edStr) rows p hp q hq
  exact ⟨h.1, List.length_pos.mpr h.1, h.2⟩

/-- Claim C10 (witness). -/
theorem claim_C10_witness :
    ([(72 : ℚ)] ≠ [] ∧ 0 < ([(72 : ℚ)]).length ∧ ∀ v ∈ [(72 : ℚ)], 0 < v) := by
  have hstate : hrQueryBuild none none [⟨"2024-01-15 08:00:00 +0000", "72"⟩] =
      [(2024, [("January", [(72 : ℚ)])])] := by decide
  have hp : ((2024 : ℕ), [("January", [(72 : ℚ)])]) ∈
      hrQueryBuild (parseDate "") (parseDate "")
        [⟨"2024-01-15 08:00:00 +0000", "72"⟩] := by
    rw [show parseDate "" = (none : Option HDate) from rfl, hstate]
    exact List.mem_cons_self _ _
  have hq : (("January", [(72 : ℚ)])) ∈ [("January", [(72 : ℚ)])] :=
    List.mem_cons_self _ _
  exact claim_C10 [⟨"2024-01-15 08:00:00 +0000", "72"⟩] "" "" _ hp _ hq

end Claims

end HealthDash
